import Mathlib

/-!
# Verification of the CFramework concurrency middleware

Shallow embedding of the CFramework core subsystems (event bus, thread
pool, memory-pool manager) and proofs about the behaviour of their
operations.

Embedding conventions:
* C `uint32_t` values are `Nat` together with explicit `% 2^32`
  wrap-around on increment/decrement (`inc32` / `dec32`).
* Pointers are modelled at the granularity the code manipulates them:
  subscriber handles are slot indices into the subscriber table, memory
  pool block pointers are `Nat` addresses (`0` plays the role of `NULL`).
* RTOS primitives (mutexes, heap) are modelled as always succeeding:
  the verified claims are about the logic guarded by them, and the code
  paths modelled here are the ones the claims cite.
* Queues are FIFO lists; a receive with any timeout succeeds exactly
  when the queue snapshot is non-empty (blocking behaviour is not part
  of a pure snapshot; the timeout value passed by the code is recorded
  in the worker's poll trace so that it can be reasoned about).
-/

namespace CF

/-- Status codes from `cf_status.h` (the constructors the verified
subsystems use). -/
inductive Status where
  | ok
  | error
  | invalidParam
  | nullPointer
  | invalidState
  | noMemory
  | timeout
  | notInitialized
  | alreadyInitialized
  | notFound
  | queueFull
  deriving DecidableEq, Repr

/-- Modulus of a C `uint32_t`. -/
def U32 : Nat := 2 ^ 32

/-- `uint32_t` increment (`x++`). -/
def inc32 (n : Nat) : Nat := (n + 1) % U32

/-- `uint32_t` decrement (`x--`). -/
def dec32 (n : Nat) : Nat := (n + (U32 - 1)) % U32

theorem inc32_eq (n : Nat) (h : n + 1 < U32) : inc32 n = n + 1 := by
  simp [inc32, Nat.mod_eq_of_lt h]

theorem dec32_eq (n : Nat) (h1 : 1 ≤ n) (h2 : n < U32) : dec32 n = n - 1 := by
  unfold dec32 U32 at *
  rw [show n + (2 ^ 32 - 1) = (n - 1) + 1 * 2 ^ 32 by omega,
    Nat.add_mul_mod_self_right]
  omega

end CF

namespace CF.Event

/-! ## Event bus (`cf_event.c`)

Embedding of the subscriber table and the operations
`cf_event_subscribe`, `cf_event_unsubscribe`, `cf_event_unsubscribe_all`,
`cf_event_publish_data`, `cf_event_get_subscriber_count` and
`cf_event_get_event_subscriber_count`.  The subscriber array
`subscribers[CF_EVENT_MAX_SUBSCRIBERS]` is a `List Subscriber` whose
length is the compile-time capacity (default 32). -/

/-- `CF_EVENT_MAX_SUBSCRIBERS` (default configuration). -/
def MAX_SUBSCRIBERS : Nat := 32

/-- `cf_event_mode_t`. -/
inductive Mode where
  | sync
  | async
  deriving DecidableEq, Repr

/-- `cf_event_subscriber_s`: one slot of the subscriber table.
`callback` is a function-pointer identity; `0` stands for `NULL`. -/
structure Subscriber where
  active : Bool
  event_id : Nat
  callback : Nat
  user_data : Nat
  mode : Mode
  deriving DecidableEq, Repr

instance : Inhabited Subscriber := ⟨⟨false, 0, 0, 0, Mode.sync⟩⟩

/-- A zeroed slot (the state `memset` leaves behind). -/
def Subscriber.cleared : Subscriber := ⟨false, 0, 0, 0, Mode.sync⟩

/-- `cf_event_system_t` (the singleton `g_event_system`). -/
structure System where
  initialized : Bool
  subscribers : List Subscriber
  subscriber_count : Nat
  total_published : Nat
  deriving DecidableEq, Repr

/-- The zero-initialised singleton `g_event_system = {0}`. -/
def System.zeroed : System :=
  ⟨false, List.replicate MAX_SUBSCRIBERS Subscriber.cleared, 0, 0⟩

/-- `find_free_subscriber_slot`: index of the first slot whose `active`
flag is false, `-1` (here `none`) when the table is full. -/
def findFreeSubscriberSlot : List Subscriber → Option Nat
  | [] => none
  | sub :: rest =>
    if !sub.active then some 0
    else (findFreeSubscriberSlot rest).map (· + 1)

/-- `cf_event_init`: refuse a second init, otherwise clear the table and
counters and mark the system initialized. -/
def init (s : System) : Status × System :=
  if s.initialized then (Status.alreadyInitialized, s)
  else
    (Status.ok,
     { initialized := true
       subscribers := List.replicate MAX_SUBSCRIBERS Subscriber.cleared
       subscriber_count := 0
       total_published := 0 })

/-- `cf_event_subscribe`.  The returned handle is the slot index the
subscriber was stored at (the C handle is the address of that slot). -/
def subscribe (s : System) (event_id cb user_data : Nat) (mode : Mode) :
    Status × System × Option Nat :=
  if cb = 0 then (Status.nullPointer, s, none)
  else if !s.initialized then (Status.notInitialized, s, none)
  else
    match findFreeSubscriberSlot s.subscribers with
    | none => (Status.noMemory, s, none)
    | some slot =>
      (Status.ok,
       { s with
         subscribers := s.subscribers.set slot
           ⟨true, event_id, cb, user_data, mode⟩
         subscriber_count := inc32 s.subscriber_count },
       some slot)

/-- `cf_event_unsubscribe`.  A handle is `none` for `NULL`, or a slot
index; indices at or beyond the table length model pointers outside the
array (the code's range check). -/
def unsubscribe (s : System) (handle : Option Nat) : Status × System :=
  match handle with
  | none => (Status.nullPointer, s)
  | some i =>
    if !s.initialized then (Status.notInitialized, s)
    else if i ≥ s.subscribers.length then (Status.invalidParam, s)
    else if !((s.subscribers.getD i default).active) then (Status.notFound, s)
    else
      (Status.ok,
       { s with
         subscribers := s.subscribers.set i
           { s.subscribers.getD i default with active := false }
         subscriber_count := dec32 s.subscriber_count })

/-- Condition tested by `cf_event_unsubscribe_all` on each slot:
`subscribers[i].active && subscribers[i].event_id == event_id`. -/
def matchAllB (event_id : Nat) (sub : Subscriber) : Bool :=
  sub.active && (sub.event_id == event_id)

/-- Loop body of `cf_event_unsubscribe_all`: walks the table, clearing
the `active` flag of every active slot whose `event_id` matches,
decrementing the global counter and incrementing the returned count.
Returns (new table, new `subscriber_count`, deactivated count). -/
def unsubscribeAllLoop (event_id : Nat) :
    List Subscriber → Nat → Nat → List Subscriber × Nat × Nat
  | [], cnt, c => ([], cnt, c)
  | sub :: rest, cnt, c =>
    if matchAllB event_id sub then
      let r := unsubscribeAllLoop event_id rest (dec32 cnt) (inc32 c)
      ({ sub with active := false } :: r.1, r.2)
    else
      let r := unsubscribeAllLoop event_id rest cnt c
      (sub :: r.1, r.2)

/-- `cf_event_unsubscribe_all`: returns the number of deactivated
subscribers (0 when the bus is not initialized). -/
def unsubscribeAll (s : System) (event_id : Nat) : Nat × System :=
  if !s.initialized then (0, s)
  else
    let r := unsubscribeAllLoop event_id s.subscribers s.subscriber_count 0
    (r.2.2, { s with subscribers := r.1, subscriber_count := r.2.1 })

/-- `cf_event_get_subscriber_count`: 0 when not initialized. -/
def getSubscriberCount (s : System) : Nat :=
  if !s.initialized then 0 else s.subscriber_count

/-- Whether a slot matches a published id (`sub->event_id == event_id ||
sub->event_id == 0`, on an active slot). -/
def matchesB (event_id : Nat) (sub : Subscriber) : Bool :=
  sub.active && (sub.event_id == event_id || sub.event_id == 0)

/-- `cf_event_get_event_subscriber_count`: counts active slots whose id
equals the argument or is the wildcard 0 (0 when not initialized). -/
def getEventSubscriberCount (s : System) (event_id : Nat) : Nat :=
  if !s.initialized then 0
  else s.subscribers.countP (fun sub => matchesB event_id sub)

/-- One delivery performed by the publish loop: the slot it went to, the
slot's delivery mode, and the arguments handed to the callback (for
async, to the dispatch context submitted to the thread pool). -/
structure Delivery where
  slot : Nat
  mode : Mode
  event_id : Nat
  callback : Nat
  user_data : Nat
  data : Option (List Nat)
  data_size : Nat
  deriving DecidableEq, Repr

/-- `deliver_to_subscriber` for slot index `i`.  Sync: the callback is
invoked with the published pointer and size as-is.  Async: a dispatch
context is built whose `data` is a copy of the first `data_size` bytes
when `data != NULL && data_size > 0`, and `NULL` otherwise (allocation
and submission are modelled as succeeding). -/
def deliverToSubscriber (i : Nat) (sub : Subscriber) (event_id : Nat)
    (data : Option (List Nat)) (data_size : Nat) : Delivery :=
  match sub.mode with
  | Mode.sync =>
    ⟨i, Mode.sync, event_id, sub.callback, sub.user_data, data, data_size⟩
  | Mode.async =>
    let ctxData : Option (List Nat) :=
      match data with
      | some bytes => if data_size > 0 then some (bytes.take data_size) else none
      | none => none
    ⟨i, Mode.async, event_id, sub.callback, sub.user_data, ctxData, data_size⟩

/-- The publish loop over the table, starting at slot index `i`:
delivers to each active slot whose id matches the published id or is 0. -/
def publishLoop (event_id : Nat) (data : Option (List Nat)) (data_size : Nat) :
    List Subscriber → Nat → List Delivery
  | [], _ => []
  | sub :: rest, i =>
    (if matchesB event_id sub
     then [deliverToSubscriber i sub event_id data data_size]
     else []) ++ publishLoop event_id data data_size rest (i + 1)

/-- `cf_event_publish_data`: rejects a missing payload with a positive
size, otherwise bumps `total_published` and walks the table. -/
def publishData (s : System) (event_id : Nat) (data : Option (List Nat))
    (data_size : Nat) : Status × System × List Delivery :=
  if !s.initialized then (Status.notInitialized, s, [])
  else if data_size > 0 && data.isNone then (Status.nullPointer, s, [])
  else
    (Status.ok,
     { s with total_published := inc32 s.total_published },
     publishLoop event_id data data_size s.subscribers 0)

/-- `cf_event_publish` delegates to `cf_event_publish_data(id, NULL, 0)`. -/
def publish (s : System) (event_id : Nat) : Status × System × List Delivery :=
  publishData s event_id none 0

end CF.Event

namespace CF.Event

/-! ### Helper lemmas about the subscriber table -/

/-- Number of slots whose active flag is true. -/
def countActive (l : List Subscriber) : Nat := l.countP (fun sub => sub.active)

theorem findFreeSubscriberSlot_spec (l : List Subscriber) (i : Nat)
    (h : findFreeSubscriberSlot l = some i) :
    i < l.length ∧ (l.getD i default).active = false := by
  induction l generalizing i with
  | nil => simp [findFreeSubscriberSlot] at h
  | cons sub rest ih =>
    by_cases ha : sub.active
    · simp [findFreeSubscriberSlot, ha] at h
      obtain ⟨j, hj, rfl⟩ := h
      obtain ⟨h1, h2⟩ := ih j hj
      refine ⟨by simpa using Nat.succ_lt_succ h1, by simpa using h2⟩
    · simp [findFreeSubscriberSlot, ha] at h
      subst h
      simp [ha]

theorem countActive_le_length (l : List Subscriber) :
    countActive l ≤ l.length := List.countP_le_length _

theorem countMatchAll_le_countActive (event_id : Nat) (l : List Subscriber) :
    l.countP (matchAllB event_id) ≤ countActive l := by
  induction l with
  | nil => simp [countActive]
  | cons sub rest ih =>
    simp only [countActive, List.countP_cons] at *
    have : (if matchAllB event_id sub then 1 else 0) ≤
        (if sub.active then 1 else 0) := by
      by_cases h : sub.active
      · by_cases h2 : sub.event_id == event_id <;> simp [matchAllB, h, h2]
      · simp [matchAllB, h]
    omega

/-! ### The loop of `cf_event_unsubscribe_all` -/

theorem unsubscribeAllLoop_spec (event_id : Nat) (l : List Subscriber)
    (cnt c : Nat) (hc : l.countP (matchAllB event_id) ≤ cnt) (hcnt : cnt < U32)
    (hcc : c + l.countP (matchAllB event_id) < U32) :
    (unsubscribeAllLoop event_id l cnt c).1.length = l.length ∧
    countActive (unsubscribeAllLoop event_id l cnt c).1 =
      countActive l - l.countP (matchAllB event_id) ∧
    (unsubscribeAllLoop event_id l cnt c).2.1 =
      cnt - l.countP (matchAllB event_id) ∧
    (unsubscribeAllLoop event_id l cnt c).2.2 =
      c + l.countP (matchAllB event_id) := by
  induction l generalizing cnt c with
  | nil => simp [unsubscribeAllLoop, countActive]
  | cons sub rest ih =>
    by_cases hm : matchAllB event_id sub
    · have hact : sub.active = true := by
        have := hm
        simp [matchAllB] at this
        exact this.1
      have hcntcons : (sub :: rest).countP (matchAllB event_id) =
          rest.countP (matchAllB event_id) + 1 := by
        simp [List.countP_cons, hm]
      rw [hcntcons] at hc hcc
      have h1 : 1 ≤ cnt := by omega
      have hdec : dec32 cnt = cnt - 1 := dec32_eq cnt h1 hcnt
      have hinc : inc32 c = c + 1 := inc32_eq c (by omega)
      obtain ⟨ih1, ih2, ih3, ih4⟩ := ih (cnt - 1) (c + 1) (by omega) (by omega) (by omega)
      simp only [unsubscribeAllLoop, hm, if_true, hdec, hinc]
      refine ⟨by simpa using ih1, ?_, by simpa using by omega, by simpa using by omega⟩
      have hca : countActive (sub :: rest) = countActive rest + 1 := by
        simp [countActive, List.countP_cons, hact]
      have hinact : countActive
          ({ sub with active := false } ::
            (unsubscribeAllLoop event_id rest (cnt - 1) (c + 1)).1) =
          countActive (unsubscribeAllLoop event_id rest (cnt - 1) (c + 1)).1 := by
        simp [countActive, List.countP_cons]
      rw [hinact, ih2, hca, hcntcons]
      have := countMatchAll_le_countActive event_id rest
      omega
    · have hcntcons : (sub :: rest).countP (matchAllB event_id) =
          rest.countP (matchAllB event_id) := by
        simp [List.countP_cons, hm]
      rw [hcntcons] at hc hcc
      obtain ⟨ih1, ih2, ih3, ih4⟩ := ih cnt c hc hcnt hcc
      have hmf : matchAllB event_id sub = false := by
        simpa using hm
      simp only [unsubscribeAllLoop, hmf, Bool.false_eq_true, if_false]
      refine ⟨by simpa using ih1, ?_, by rw [hcntcons]; exact ih3,
        by rw [hcntcons]; exact ih4⟩
      have hca : countActive (sub :: rest) =
          (if sub.active then 1 else 0) + countActive rest := by
        simp [countActive, List.countP_cons]; omega
      have hca2 : countActive (sub :: (unsubscribeAllLoop event_id rest cnt c).1) =
          (if sub.active then 1 else 0) +
            countActive (unsubscribeAllLoop event_id rest cnt c).1 := by
        simp [countActive, List.countP_cons]; omega
      rw [hca2, ih2, hca, hcntcons]
      have := countMatchAll_le_countActive event_id rest
      omega

/-! ### Subscriber-count invariant (operations after init) -/

/-- The invariant carried through every bus operation: the bus stays
initialized, the table keeps its compile-time capacity, and the stored
`subscriber_count` equals the number of active slots. -/
def Inv (s : System) : Prop :=
  s.initialized = true ∧
  s.subscribers.length = MAX_SUBSCRIBERS ∧
  s.subscriber_count = countActive s.subscribers

/-- The subscription-management operations of the public API. -/
inductive Op where
  | subscribe (event_id cb user_data : Nat) (mode : Mode)
  | unsubscribe (handle : Option Nat)
  | unsubscribeAll (event_id : Nat)

/-- State transition of one operation (ignoring its status/result). -/
def applyOp (s : System) : Op → System
  | Op.subscribe event_id cb ud m => (subscribe s event_id cb ud m).2.1
  | Op.unsubscribe h => (unsubscribe s h).2
  | Op.unsubscribeAll event_id => (unsubscribeAll s event_id).2

/-- Run a sequence of operations left to right. -/
def runOps (s : System) : List Op → System
  | [] => s
  | op :: rest => runOps (applyOp s op) rest

/-- Branch equation: successful subscribe at the found slot. -/
theorem subscribe_eq_of_found (s : System) (event_id cb ud : Nat) (m : Mode)
    (hcb : cb ≠ 0) (hi : s.initialized = true) (slot : Nat)
    (hfind : findFreeSubscriberSlot s.subscribers = some slot) :
    subscribe s event_id cb ud m =
      (Status.ok,
       { s with
         subscribers := s.subscribers.set slot
           ⟨true, event_id, cb, ud, m⟩
         subscriber_count := inc32 s.subscriber_count },
       some slot) := by
  unfold subscribe
  rw [if_neg hcb, if_neg (by simp [hi]), hfind]

/-- Branch equation: unsubscribe of an in-range active slot. -/
theorem unsubscribe_eq_of_active (s : System) (i : Nat)
    (hi : s.initialized = true) (hlt : i < s.subscribers.length)
    (hact : (s.subscribers.getD i default).active = true) :
    unsubscribe s (some i) =
      (Status.ok,
       { s with
         subscribers := s.subscribers.set i
           { s.subscribers.getD i default with active := false }
         subscriber_count := dec32 s.subscriber_count }) := by
  unfold unsubscribe
  dsimp only
  rw [if_neg (by simp [hi]), if_neg (by omega), if_neg (by rw [List.getD_eq_getElem?_getD] at hact; simp [hact])]

/-- Branch equation: unsubscribe of an in-range inactive slot. -/
theorem unsubscribe_eq_of_inactive (s : System) (i : Nat)
    (hi : s.initialized = true) (hlt : i < s.subscribers.length)
    (hact : (s.subscribers.getD i default).active = false) :
    unsubscribe s (some i) = (Status.notFound, s) := by
  unfold unsubscribe
  dsimp only
  rw [if_neg (by simp [hi]), if_neg (by omega), if_pos (by rw [List.getD_eq_getElem?_getD] at hact; simp [hact])]

/-- Branch equation: unsubscribe_all on an initialized bus. -/
theorem unsubscribeAll_eq (s : System) (event_id : Nat)
    (hi : s.initialized = true) :
    unsubscribeAll s event_id =
      ((unsubscribeAllLoop event_id s.subscribers s.subscriber_count 0).2.2,
       { s with
         subscribers :=
           (unsubscribeAllLoop event_id s.subscribers s.subscriber_count 0).1
         subscriber_count :=
           (unsubscribeAllLoop event_id s.subscribers s.subscriber_count 0).2.1 }) := by
  unfold unsubscribeAll
  rw [if_neg (by simp [hi])]

theorem subscribe_inv (s : System) (event_id cb ud : Nat) (m : Mode)
    (h : Inv s) : Inv (subscribe s event_id cb ud m).2.1 := by
  obtain ⟨hi, hl, hcnt⟩ := h
  by_cases hcb : cb = 0
  · simpa [subscribe, hcb] using ⟨hi, hl, hcnt⟩
  · cases hfind : findFreeSubscriberSlot s.subscribers with
    | none =>
      have : subscribe s event_id cb ud m = (Status.noMemory, s, none) := by
        unfold subscribe
        rw [if_neg hcb, if_neg (by simp [hi]), hfind]
      rw [this]
      exact ⟨hi, hl, hcnt⟩
    | some slot =>
      obtain ⟨hslot, hinact⟩ := findFreeSubscriberSlot_spec _ _ hfind
      have hgd : s.subscribers.getD slot default = s.subscribers[slot] := by
        simp [List.getElem?_eq_getElem hslot]
      have hset : countActive
          (s.subscribers.set slot ⟨true, event_id, cb, ud, m⟩) =
          countActive s.subscribers + 1 := by
        unfold countActive
        rw [List.countP_set _ _ _ _ hslot]
        rw [hgd] at hinact
        simp [hinact]
      have hbound : countActive s.subscribers + 1 < U32 := by
        have h1 := countActive_le_length s.subscribers
        rw [hl] at h1
        unfold MAX_SUBSCRIBERS at h1
        unfold U32
        omega
      rw [subscribe_eq_of_found s event_id cb ud m hcb hi slot hfind]
      refine ⟨hi, by simpa using hl, ?_⟩
      simp only [hcnt]
      rw [inc32_eq _ hbound, hset]

theorem unsubscribe_inv (s : System) (handle : Option Nat)
    (h : Inv s) : Inv (unsubscribe s handle).2 := by
  obtain ⟨hi, hl, hcnt⟩ := h
  cases handle with
  | none => exact ⟨hi, hl, hcnt⟩
  | some i =>
    by_cases hrange : i ≥ s.subscribers.length
    · have : unsubscribe s (some i) = (Status.invalidParam, s) := by
        unfold unsubscribe
        dsimp only
        rw [if_neg (by simp [hi]), if_pos hrange]
      rw [this]
      exact ⟨hi, hl, hcnt⟩
    · have hlt : i < s.subscribers.length := by omega
      have hgd : s.subscribers.getD i default = s.subscribers[i] := by
        simp [List.getElem?_eq_getElem hlt]
      by_cases hact : (s.subscribers.getD i default).active
      · have hone : (if (s.subscribers[i]).active then 1 else 0) ≤
            countActive s.subscribers :=
          List.boole_getElem_le_countP (fun sub => sub.active) s.subscribers i hlt
        rw [hgd] at hact
        rw [hact] at hone
        simp only [if_true] at hone
        have hbound : countActive s.subscribers < U32 := by
          have h1 := countActive_le_length s.subscribers
          rw [hl] at h1
          unfold MAX_SUBSCRIBERS at h1
          unfold U32
          omega
        have hset : countActive
            (s.subscribers.set i
              { s.subscribers.getD i default with active := false }) =
            countActive s.subscribers - 1 := by
          unfold countActive
          rw [List.countP_set _ _ _ _ hlt]
          rw [hgd]
          simp [hact]
        rw [unsubscribe_eq_of_active s i hi hlt (by rw [hgd]; exact hact)]
        refine ⟨hi, by simpa using hl, ?_⟩
        simp only [hcnt]
        rw [dec32_eq _ hone hbound, hset]
      · have hactf : (s.subscribers.getD i default).active = false := by
          simpa using hact
        rw [unsubscribe_eq_of_inactive s i hi hlt hactf]
        exact ⟨hi, hl, hcnt⟩

theorem unsubscribeAll_inv (s : System) (event_id : Nat)
    (h : Inv s) : Inv (unsubscribeAll s event_id).2 := by
  obtain ⟨hi, hl, hcnt⟩ := h
  have hm := countMatchAll_le_countActive event_id s.subscribers
  have hca := countActive_le_length s.subscribers
  rw [hl] at hca
  unfold MAX_SUBSCRIBERS at hca
  have hcu : s.subscriber_count < U32 := by
    rw [hcnt]; unfold U32; omega
  obtain ⟨h1, h2, h3, _⟩ := unsubscribeAllLoop_spec event_id s.subscribers
    s.subscriber_count 0 (by omega) hcu (by unfold U32; omega)
  rw [unsubscribeAll_eq s event_id hi]
  refine ⟨hi, by simpa using h1 ▸ hl, ?_⟩
  show (unsubscribeAllLoop event_id s.subscribers s.subscriber_count 0).2.1 =
    countActive (unsubscribeAllLoop event_id s.subscribers s.subscriber_count 0).1
  rw [h3, h2, hcnt]

theorem applyOp_inv (s : System) (op : Op) (h : Inv s) : Inv (applyOp s op) := by
  cases op with
  | subscribe event_id cb ud m => exact subscribe_inv s event_id cb ud m h
  | unsubscribe handle => exact unsubscribe_inv s handle h
  | unsubscribeAll event_id => exact unsubscribeAll_inv s event_id h

theorem runOps_inv (s : System) (ops : List Op) (h : Inv s) :
    Inv (runOps s ops) := by
  induction ops generalizing s with
  | nil => exact h
  | cons op rest ih => exact ih _ (applyOp_inv s op h)

theorem init_inv : Inv (init System.zeroed).2 := by
  refine ⟨by decide, by decide, by decide⟩

/-- C4: for every sequence of subscribe / unsubscribe / unsubscribe_all
operations after `cf_event_init`, the reported `subscriber_count`
equals the number of subscriber-table slots whose active flag is true. -/
theorem subscriber_count_matches_active_slots (ops : List Op) :
    getSubscriberCount (runOps (init System.zeroed).2 ops) =
      countActive (runOps (init System.zeroed).2 ops).subscribers := by
  obtain ⟨hi, _, hcnt⟩ := runOps_inv _ ops init_inv
  simp [getSubscriberCount, hi, hcnt]

/-! ### Unsubscribe on inactive slots (double unsubscribe) -/

/-- C8: a handle pointing inside the subscriber array at an inactive slot
makes `cf_event_unsubscribe` return `NotFound` and leave the whole state
unchanged; a handle at an active slot succeeds once and then yields
`NotFound`, the second call changing nothing. -/
theorem unsubscribe_inactive_behaviour (s : System) (i : Nat)
    (hi : s.initialized = true) (hlt : i < s.subscribers.length) :
    ((s.subscribers.getD i default).active = false →
      unsubscribe s (some i) = (Status.notFound, s)) ∧
    ((s.subscribers.getD i default).active = true →
      (unsubscribe s (some i)).1 = Status.ok ∧
      (unsubscribe (unsubscribe s (some i)).2 (some i)).1 = Status.notFound ∧
      (unsubscribe (unsubscribe s (some i)).2 (some i)).2 =
        (unsubscribe s (some i)).2) := by
  constructor
  · intro hact
    exact unsubscribe_eq_of_inactive s i hi hlt hact
  · intro hact
    have hset_getD : ∀ (l : List Subscriber) (x : Subscriber), i < l.length →
        (l.set i x).getD i default = x := by
      intro l x hl
      have h2 : i < (l.set i x).length := by simpa using hl
      rw [List.getD_eq_getElem?_getD, List.getElem?_eq_getElem h2]
      simp
    rw [unsubscribe_eq_of_active s i hi hlt hact]
    dsimp only
    rw [unsubscribe_eq_of_inactive _ i (by simp [hi]) (by simpa using hlt)
      (by rw [hset_getD _ _ hlt])]
    exact ⟨rfl, rfl, rfl⟩

/-! ### Per-event subscriber counting -/

/-- What the claim's wording computes: active slots with the queried id,
plus active wildcard slots (modelled from the spec sentence, for
comparison with the code's `cf_event_get_event_subscriber_count`). -/
def specEventSubscriberCount (s : System) (event_id : Nat) : Nat :=
  s.subscribers.countP (fun sub => sub.active && (sub.event_id == event_id)) +
  s.subscribers.countP (fun sub => sub.active && (sub.event_id == 0))

/-- A bus with exactly one active wildcard subscriber. -/
def wildcardOnly : System :=
  { initialized := true
    subscribers := ⟨true, 0, 1, 0, Mode.sync⟩ ::
      List.replicate 31 Subscriber.cleared
    subscriber_count := 1
    total_published := 0 }

/-- C9 counterexample: querying id 0 on a bus with one active wildcard
subscriber returns 1, but the claimed formula (id-matching slots plus
wildcard slots) gives 2. -/
theorem eventSubscriberCount_claim_false :
    getEventSubscriberCount wildcardOnly 0 = 1 ∧
    specEventSubscriberCount wildcardOnly 0 = 2 ∧
    getEventSubscriberCount wildcardOnly 0 ≠ specEventSubscriberCount wildcardOnly 0 := by
  refine ⟨by decide, by decide, by decide⟩

/-- C9 amended: the count returned is the number of active slots whose id
equals the argument **or** is 0; for every nonzero queried id this equals
the id-matching count plus the wildcard count (so wildcard subscribers
are included), while for id 0 the wildcard slots are counted once. -/
theorem eventSubscriberCount_spec (s : System) (event_id : Nat)
    (hi : s.initialized = true) :
    getEventSubscriberCount s event_id =
      s.subscribers.countP (fun sub => matchesB event_id sub) ∧
    (event_id ≠ 0 →
      getEventSubscriberCount s event_id = specEventSubscriberCount s event_id) := by
  constructor
  · simp [getEventSubscriberCount, hi]
  · intro hnz
    have key : ∀ l : List Subscriber,
        l.countP (fun sub => matchesB event_id sub) =
        l.countP (fun sub => sub.active && (sub.event_id == event_id)) +
        l.countP (fun sub => sub.active && (sub.event_id == 0)) := by
      intro l
      induction l with
      | nil => simp
      | cons sub rest ih =>
        simp only [List.countP_cons, ih]
        have : (if matchesB event_id sub then 1 else 0) =
            (if sub.active && (sub.event_id == event_id) then 1 else 0) +
            (if sub.active && (sub.event_id == 0) then 1 else 0) := by
          by_cases ha : sub.active
          · by_cases h1 : sub.event_id = event_id
            · simp [matchesB, ha, h1, hnz]
            · by_cases h2 : sub.event_id = 0
              · simp only [matchesB, ha, h2]
                simp [h1]
                omega
              · simp [matchesB, ha, h1, h2]
          · simp [matchesB, ha]
        omega
    simp only [getEventSubscriberCount, hi, Bool.not_true, Bool.false_eq_true,
      if_false, specEventSubscriberCount]
    exact key s.subscribers

/-- Witness for the amended C9 theorem at a concrete bus and id. -/
theorem eventSubscriberCount_spec_witness :
    wildcardOnly.initialized = true ∧
    (getEventSubscriberCount wildcardOnly 7 =
      wildcardOnly.subscribers.countP (fun sub => matchesB 7 sub) ∧
     (7 ≠ 0 →
      getEventSubscriberCount wildcardOnly 7 = specEventSubscriberCount wildcardOnly 7)) :=
  ⟨rfl, eventSubscriberCount_spec wildcardOnly 7 rfl⟩

/-! ### Publish delivery characterization -/

theorem deliverToSubscriber_slot (i : Nat) (sub : Subscriber) (event_id : Nat)
    (data : Option (List Nat)) (data_size : Nat) :
    (deliverToSubscriber i sub event_id data data_size).slot = i := by
  cases h : sub.mode <;> simp [deliverToSubscriber, h]

theorem deliverToSubscriber_fields (i : Nat) (sub : Subscriber) (event_id : Nat)
    (data : Option (List Nat)) (data_size : Nat) :
    (deliverToSubscriber i sub event_id data data_size).event_id = event_id ∧
    (deliverToSubscriber i sub event_id data data_size).data_size = data_size ∧
    (deliverToSubscriber i sub event_id data data_size).mode = sub.mode ∧
    (deliverToSubscriber i sub event_id data data_size).callback = sub.callback ∧
    (deliverToSubscriber i sub event_id data data_size).user_data = sub.user_data := by
  cases h : sub.mode <;> simp [deliverToSubscriber, h]

/-- Each slot index receives exactly one delivery when it is active and
matching, and none otherwise. -/
theorem publishLoop_countP (event_id : Nat) (data : Option (List Nat))
    (data_size : Nat) (l : List Subscriber) (i0 j : Nat) :
    (publishLoop event_id data data_size l i0).countP (fun d => d.slot == j) =
      if i0 ≤ j ∧ j - i0 < l.length ∧
         matchesB event_id (l.getD (j - i0) default) = true
      then 1 else 0 := by
  induction l generalizing i0 with
  | nil => simp [publishLoop]
  | cons sub rest ih =>
    simp only [publishLoop, List.countP_append]
    rw [ih (i0 + 1)]
    have hsingle : (if matchesB event_id sub then
        [deliverToSubscriber i0 sub event_id data data_size] else []).countP
          (fun d => d.slot == j) =
        if j = i0 ∧ matchesB event_id sub = true then 1 else 0 := by
      by_cases hm : matchesB event_id sub
      · by_cases hj : j = i0
        · simp [hm, hj, List.countP_singleton, deliverToSubscriber_slot]
        · simp [hm, hj, List.countP_singleton, deliverToSubscriber_slot,
            Ne.symm hj]
      · simp [hm]
    rw [hsingle]
    rcases Nat.lt_trichotomy j i0 with hj | hj | hj
    · have h1 : ¬(j = i0 ∧ matchesB event_id sub = true) := by omega
      have h2 : ¬(i0 + 1 ≤ j ∧ j - (i0 + 1) < rest.length ∧
          matchesB event_id (rest.getD (j - (i0 + 1)) default) = true) := by omega
      have h3 : ¬(i0 ≤ j ∧ j - i0 < (sub :: rest).length ∧
          matchesB event_id ((sub :: rest).getD (j - i0) default) = true) := by omega
      rw [if_neg h1, if_neg h2, if_neg h3]
    · subst hj
      have h2 : ¬(j + 1 ≤ j ∧ j - (j + 1) < rest.length ∧
          matchesB event_id (rest.getD (j - (j + 1)) default) = true) := by omega
      rw [if_neg h2]
      have hz : j - j = 0 := by omega
      by_cases hm : matchesB event_id sub
      · rw [if_pos ⟨rfl, hm⟩, if_pos]
        refine ⟨Nat.le_refl j, by simp, ?_⟩
        rw [hz, List.getD_cons_zero]
        exact hm
      · rw [if_neg (by simp [hm]), if_neg]
        intro hcon
        obtain ⟨_, _, hc⟩ := hcon
        rw [hz, List.getD_cons_zero] at hc
        exact hm hc
    · have h1 : ¬(j = i0 ∧ matchesB event_id sub = true) := by omega
      rw [if_neg h1]
      have hidx : j - i0 = (j - (i0 + 1)) + 1 := by omega
      have hgd : (sub :: rest).getD (j - i0) default =
          rest.getD (j - (i0 + 1)) default := by
        rw [hidx, List.getD_cons_succ]
      by_cases hc : i0 + 1 ≤ j ∧ j - (i0 + 1) < rest.length ∧
          matchesB event_id (rest.getD (j - (i0 + 1)) default) = true
      · rw [if_pos hc, if_pos]
        obtain ⟨c1, c2, c3⟩ := hc
        exact ⟨by omega, by simp; omega, by rw [hgd]; exact c3⟩
      · rw [if_neg hc, if_neg]
        intro hcon
        obtain ⟨c1, c2, c3⟩ := hcon
        rw [hgd] at c3
        apply hc
        refine ⟨by omega, by simp at c2; omega, c3⟩

/-- Every delivery produced by the loop goes to a matching active slot
and carries the published id/payload and that slot's mode/callback. -/
theorem publishLoop_mem (event_id : Nat) (data : Option (List Nat))
    (data_size : Nat) (l : List Subscriber) (i0 : Nat) (d : Delivery)
    (hd : d ∈ publishLoop event_id data data_size l i0) :
    i0 ≤ d.slot ∧ d.slot - i0 < l.length ∧
    matchesB event_id (l.getD (d.slot - i0) default) = true ∧
    d = deliverToSubscriber d.slot (l.getD (d.slot - i0) default)
          event_id data data_size := by
  induction l generalizing i0 with
  | nil => simp [publishLoop] at hd
  | cons sub rest ih =>
    simp only [publishLoop, List.mem_append] at hd
    rcases hd with hd | hd
    · by_cases hm : matchesB event_id sub
      · rw [if_pos hm] at hd
        simp only [List.mem_singleton] at hd
        subst hd
        rw [deliverToSubscriber_slot]
        refine ⟨Nat.le_refl i0, by simp, ?_, ?_⟩
        · rw [Nat.sub_self, List.getD_cons_zero]; exact hm
        · rw [Nat.sub_self, List.getD_cons_zero]
      · rw [if_neg hm] at hd
        simp at hd
    · obtain ⟨h1, h2, h3, h4⟩ := ih (i0 + 1) hd
      have hidx : d.slot - i0 = (d.slot - (i0 + 1)) + 1 := by omega
      have hgd : (sub :: rest).getD (d.slot - i0) default =
          rest.getD (d.slot - (i0 + 1)) default := by
        rw [hidx, List.getD_cons_succ]
      refine ⟨by omega, by simp; omega, by rw [hgd]; exact h3, by rw [hgd]; exact h4⟩

/-- Branch equation: accepted publish on an initialized bus. -/
theorem publishData_eq (s : System) (event_id : Nat) (data : Option (List Nat))
    (data_size : Nat) (hi : s.initialized = true)
    (hok : ¬(data_size > 0 ∧ data = none)) :
    publishData s event_id data data_size =
      (Status.ok,
       { s with total_published := inc32 s.total_published },
       publishLoop event_id data data_size s.subscribers 0) := by
  unfold publishData
  rw [if_neg (by simp [hi]), if_neg]
  intro hcon
  simp only [Bool.and_eq_true, decide_eq_true_eq, Option.isNone_iff_eq_none] at hcon
  exact hok ⟨by omega, hcon.2⟩

/-- C1: on an initialized bus, `cf_event_publish_data` with `size > 0`
and `data = NULL` returns `NullPointer`, changes nothing and delivers
nothing; otherwise it returns OK, increments `total_published`, leaves
the table and count untouched, and delivers exactly once to every active
slot whose subscribed id equals the published id or is 0 — each delivery
using that slot's mode and carrying the published id and size.  A
publish with non-null data and `size = 0` succeeds and every delivery
carries a zero-length payload. -/
theorem publishData_spec (s : System) (event_id : Nat)
    (data : Option (List Nat)) (data_size : Nat)
    (hi : s.initialized = true) :
    (data_size > 0 ∧ data = none →
      publishData s event_id data data_size = (Status.nullPointer, s, [])) ∧
    (¬(data_size > 0 ∧ data = none) →
      (publishData s event_id data data_size).1 = Status.ok ∧
      (publishData s event_id data data_size).2.1.total_published =
        inc32 s.total_published ∧
      (publishData s event_id data data_size).2.1.subscribers =
        s.subscribers ∧
      (publishData s event_id data data_size).2.1.subscriber_count =
        s.subscriber_count ∧
      (∀ j, (publishData s event_id data data_size).2.2.countP
          (fun d => d.slot == j) =
        if j < s.subscribers.length ∧
           matchesB event_id (s.subscribers.getD j default) = true
        then 1 else 0) ∧
      (∀ d, d ∈ (publishData s event_id data data_size).2.2 →
        d.event_id = event_id ∧ d.data_size = data_size ∧
        d.mode = (s.subscribers.getD d.slot default).mode ∧
        d.callback = (s.subscribers.getD d.slot default).callback)) ∧
    (data ≠ none ∧ data_size = 0 →
      (publishData s event_id data data_size).1 = Status.ok ∧
      ∀ d, d ∈ (publishData s event_id data data_size).2.2 →
        d.data_size = 0) := by
  refine ⟨?_, ?_, ?_⟩
  · rintro ⟨hpos, hnone⟩
    unfold publishData
    rw [if_neg (by simp [hi]), if_pos]
    subst hnone
    simp
    omega
  · intro hok
    rw [publishData_eq s event_id data data_size hi hok]
    refine ⟨rfl, rfl, rfl, rfl, ?_, ?_⟩
    · intro j
      rw [publishLoop_countP event_id data data_size s.subscribers 0 j]
      have hz : j - 0 = j := by omega
      by_cases hc : j < s.subscribers.length ∧
          matchesB event_id (s.subscribers.getD j default) = true
      · rw [if_pos ⟨by omega, by rw [hz]; omega, by rw [hz]; exact hc.2⟩,
          if_pos hc]
      · rw [if_neg, if_neg hc]
        intro hcon
        rw [hz] at hcon
        exact hc ⟨hcon.2.1, hcon.2.2⟩
    · intro d hd
      obtain ⟨_, h2, h3, h4⟩ :=
        publishLoop_mem event_id data data_size s.subscribers 0 d hd
      rw [Nat.sub_zero] at h3 h4
      obtain ⟨f1, f2, f3, f4, _⟩ := deliverToSubscriber_fields d.slot
        (s.subscribers.getD d.slot default) event_id data data_size
      refine ⟨?_, ?_, ?_, ?_⟩
      · rw [h4]; exact f1
      · rw [h4]; exact f2
      · conv_lhs => rw [h4]
        exact f3
      · conv_lhs => rw [h4]
        exact f4
  · rintro ⟨hsome, hzero⟩
    have hok : ¬(data_size > 0 ∧ data = none) := by
      rintro ⟨hpos, _⟩
      omega
    rw [publishData_eq s event_id data data_size hi hok]
    refine ⟨rfl, ?_⟩
    intro d hd
    obtain ⟨_, _, _, h4⟩ :=
      publishLoop_mem event_id data data_size s.subscribers 0 d hd
    obtain ⟨_, f2, _⟩ := deliverToSubscriber_fields d.slot
      (s.subscribers.getD (d.slot - 0) default) event_id data data_size
    rw [h4, f2, hzero]

/-- A small concrete bus used to witness the publish theorem: a sync
subscriber on id 5, an async wildcard, an inactive slot and a sync
subscriber on id 9. -/
def pubWitnessSystem : System :=
  { initialized := true
    subscribers :=
      [⟨true, 5, 11, 0, Mode.sync⟩, ⟨true, 0, 12, 0, Mode.async⟩,
       ⟨false, 5, 13, 0, Mode.sync⟩, ⟨true, 9, 14, 0, Mode.sync⟩]
    subscriber_count := 3
    total_published := 0 }

/-- Witness for the publish theorem: publishing id 5 with a two-byte
payload on the concrete bus succeeds and delivers exactly once to slot 0
(matching sync), once to slot 1 (wildcard async), and never to slots 2
(inactive) and 3 (other id). -/
theorem publishData_spec_witness :
    pubWitnessSystem.initialized = true ∧
    (publishData pubWitnessSystem 5 (some [1, 2]) 2).1 = Status.ok ∧
    (publishData pubWitnessSystem 5 (some [1, 2]) 2).2.2.countP
      (fun d => d.slot == 0) = 1 ∧
    (publishData pubWitnessSystem 5 (some [1, 2]) 2).2.2.countP
      (fun d => d.slot == 1) = 1 ∧
    (publishData pubWitnessSystem 5 (some [1, 2]) 2).2.2.countP
      (fun d => d.slot == 2) = 0 ∧
    (publishData pubWitnessSystem 5 (some [1, 2]) 2).2.2.countP
      (fun d => d.slot == 3) = 0 := by
  have h := publishData_spec pubWitnessSystem 5 (some [1, 2]) 2 rfl
  have hok : ¬((2 : Nat) > 0 ∧ (some [1, 2] : Option (List Nat)) = none) := by
    simp
  refine ⟨rfl, (h.2.1 hok).1, ?_, ?_, ?_, ?_⟩ <;>
  · rw [(h.2.1 hok).2.2.2.2.1 _]
    decide

/-- Witness for the double-unsubscribe theorem on a concrete bus: slot 0
is active, the first unsubscribe returns OK, the second `NotFound`
leaving the state unchanged. -/
theorem unsubscribe_inactive_behaviour_witness :
    wildcardOnly.initialized = true ∧
    0 < wildcardOnly.subscribers.length ∧
    ((unsubscribe wildcardOnly (some 0)).1 = Status.ok ∧
     (unsubscribe (unsubscribe wildcardOnly (some 0)).2 (some 0)).1 =
       Status.notFound ∧
     (unsubscribe (unsubscribe wildcardOnly (some 0)).2 (some 0)).2 =
       (unsubscribe wildcardOnly (some 0)).2) := by
  refine ⟨rfl, by decide, ?_⟩
  exact (unsubscribe_inactive_behaviour wildcardOnly 0 rfl (by decide)).2 (by decide)

end CF.Event

namespace CF.ThreadPool

/-! ## Thread pool (`cf_threadpool.c`)

Embedding of the pool state machine, configuration validation in
`cf_threadpool_init_with_config`, the worker loop body of
`worker_thread`, and `cf_threadpool_get_active_count`.  The four
priority queues are FIFO lists; `cf_queue_receive` succeeds exactly when
the snapshot of the queue is non-empty, and the millisecond timeout the
code passes to each receive is recorded in the worker's poll trace. -/

/-- `cf_threadpool_priority_t`. -/
inductive Priority where
  | low
  | normal
  | high
  | critical
  deriving DecidableEq, Repr

/-- `cf_threadpool_task_t`: the descriptor stored in the queues
(`function = 0` models a NULL function pointer). -/
structure Task where
  function : Nat
  arg : Nat
  priority : Priority
  deriving DecidableEq, Repr

/-- `cf_threadpool_state_t`. -/
inductive PoolState where
  | stopped
  | running
  | shuttingDown
  deriving DecidableEq, Repr

/-- `cf_threadpool_t` (the singleton `g_threadpool`).  Each queue keeps
its creation-time capacity next to its contents. -/
structure Pool where
  initialized : Bool
  state : PoolState
  thread_count : Nat
  stack_size : Nat
  queue_critical : List Task
  queue_high : List Task
  queue_normal : List Task
  queue_low : List Task
  cap_critical : Nat
  cap_high : Nat
  cap_normal : Nat
  cap_low : Nat
  active_tasks : Nat
  total_submitted : Nat
  total_completed : Nat
  deriving DecidableEq, Repr

/-- The zero-initialised singleton `g_threadpool = {0}`. -/
def Pool.zeroed : Pool :=
  ⟨false, PoolState.stopped, 0, 0, [], [], [], [], 0, 0, 0, 0, 0, 0, 0⟩

/-- `cf_threadpool_config_t`. -/
structure Config where
  thread_count : Nat
  queue_size : Nat
  stack_size : Nat
  thread_priority : Nat
  deriving DecidableEq, Repr

/-- `cf_threadpool_init_with_config`: checks the pointer, the
`initialized` flag and that `thread_count`, `queue_size`, `stack_size`
are all non-zero, then builds the running pool (mutex, queue and worker
creation are modelled as succeeding; the `Normal` queue is created with
twice the configured size). -/
def initWithConfig (p : Pool) (config : Option Config) : Status × Pool :=
  match config with
  | none => (Status.nullPointer, p)
  | some cfg =>
    if p.initialized then (Status.alreadyInitialized, p)
    else if cfg.thread_count = 0 ∨ cfg.queue_size = 0 ∨ cfg.stack_size = 0 then
      (Status.invalidParam, p)
    else
      (Status.ok,
       { initialized := true
         state := PoolState.running
         thread_count := cfg.thread_count
         stack_size := cfg.stack_size
         queue_critical := []
         queue_high := []
         queue_normal := []
         queue_low := []
         cap_critical := cfg.queue_size
         cap_high := cfg.queue_size
         cap_normal := cfg.queue_size * 2
         cap_low := cfg.queue_size
         active_tasks := 0
         total_submitted := 0
         total_completed := 0 })

/-- `cf_threadpool_get_active_count`: 0 when not initialized. -/
def getActiveCount (p : Pool) : Nat :=
  if !p.initialized then 0 else p.active_tasks

/-- `cf_queue_receive` on a FIFO snapshot: head on success. -/
def queueReceive (q : List Task) : Option (Task × List Task) :=
  match q with
  | [] => none
  | t :: rest => some (t, rest)

/-- Counter/invocation events of one worker iteration, in program
order. -/
inductive WorkerEvent where
  | incActive
  | invoke (function arg : Nat)
  | decActive
  | incCompleted
  deriving DecidableEq, Repr

/-- The body of `worker_thread` executed after a successful receive:
if the task's function is non-NULL, bump `active_tasks`, invoke, then
drop `active_tasks` and bump `total_completed`. -/
def runTask (p : Pool) (t : Task) : Pool × List WorkerEvent :=
  if t.function ≠ 0 then
    ({ p with
       active_tasks := dec32 (inc32 p.active_tasks)
       total_completed := inc32 p.total_completed },
     [WorkerEvent.incActive, WorkerEvent.invoke t.function t.arg,
      WorkerEvent.decActive, WorkerEvent.incCompleted])
  else (p, [])

/-- One iteration of the `worker_thread` loop: while the pool is
`Running`, poll Critical (timeout 0), then High (0), then Normal (100),
then Low (0); run whatever was received.  Returns the new pool state,
the trace of polls `(queue, timeout_ms)` actually performed, and the
counter/invocation events. -/
def workerIteration (p : Pool) :
    Pool × List (Priority × Nat) × List WorkerEvent :=
  if p.state = PoolState.running then
    match queueReceive p.queue_critical with
    | some (t, q) =>
      let r := runTask { p with queue_critical := q } t
      (r.1, [(Priority.critical, 0)], r.2)
    | none =>
      match queueReceive p.queue_high with
      | some (t, q) =>
        let r := runTask { p with queue_high := q } t
        (r.1, [(Priority.critical, 0), (Priority.high, 0)], r.2)
      | none =>
        match queueReceive p.queue_normal with
        | some (t, q) =>
          let r := runTask { p with queue_normal := q } t
          (r.1,
           [(Priority.critical, 0), (Priority.high, 0),
            (Priority.normal, 100)], r.2)
        | none =>
          match queueReceive p.queue_low with
          | some (t, q) =>
            let r := runTask { p with queue_low := q } t
            (r.1,
             [(Priority.critical, 0), (Priority.high, 0),
              (Priority.normal, 100), (Priority.low, 0)], r.2)
          | none =>
            (p,
             [(Priority.critical, 0), (Priority.high, 0),
              (Priority.normal, 100), (Priority.low, 0)], [])
  else (p, [], [])

theorem dec32_inc32 (a : Nat) (h : a + 1 < U32) : dec32 (inc32 a) = a := by
  rw [inc32_eq a h, dec32_eq (a + 1) (by omega) h]
  omega

/-- C2: while the pool is `Running`, one worker iteration polls the
queues in strict priority order — Critical non-blocking, then High
non-blocking, then Normal with a 100 ms timeout, then Low non-blocking —
and on any hit increments `active_tasks`, invokes the task, then
decrements `active_tasks` and increments `total_completed`. -/
theorem workerIteration_spec (p : Pool)
    (hrun : p.state = PoolState.running)
    (hact : p.active_tasks + 1 < U32) :
    (∀ t q, p.queue_critical = t :: q → t.function ≠ 0 →
      workerIteration p =
        ({ p with queue_critical := q
                  active_tasks := p.active_tasks
                  total_completed := inc32 p.total_completed },
         [(Priority.critical, 0)],
         [WorkerEvent.incActive, WorkerEvent.invoke t.function t.arg,
          WorkerEvent.decActive, WorkerEvent.incCompleted])) ∧
    (∀ t q, p.queue_critical = [] → p.queue_high = t :: q → t.function ≠ 0 →
      workerIteration p =
        ({ p with queue_high := q
                  active_tasks := p.active_tasks
                  total_completed := inc32 p.total_completed },
         [(Priority.critical, 0), (Priority.high, 0)],
         [WorkerEvent.incActive, WorkerEvent.invoke t.function t.arg,
          WorkerEvent.decActive, WorkerEvent.incCompleted])) ∧
    (∀ t q, p.queue_critical = [] → p.queue_high = [] →
        p.queue_normal = t :: q → t.function ≠ 0 →
      workerIteration p =
        ({ p with queue_normal := q
                  active_tasks := p.active_tasks
                  total_completed := inc32 p.total_completed },
         [(Priority.critical, 0), (Priority.high, 0), (Priority.normal, 100)],
         [WorkerEvent.incActive, WorkerEvent.invoke t.function t.arg,
          WorkerEvent.decActive, WorkerEvent.incCompleted])) ∧
    (∀ t q, p.queue_critical = [] → p.queue_high = [] →
        p.queue_normal = [] → p.queue_low = t :: q → t.function ≠ 0 →
      workerIteration p =
        ({ p with queue_low := q
                  active_tasks := p.active_tasks
                  total_completed := inc32 p.total_completed },
         [(Priority.critical, 0), (Priority.high, 0), (Priority.normal, 100),
          (Priority.low, 0)],
         [WorkerEvent.incActive, WorkerEvent.invoke t.function t.arg,
          WorkerEvent.decActive, WorkerEvent.incCompleted])) ∧
    (p.queue_critical = [] → p.queue_high = [] → p.queue_normal = [] →
        p.queue_low = [] →
      workerIteration p =
        (p,
         [(Priority.critical, 0), (Priority.high, 0), (Priority.normal, 100),
          (Priority.low, 0)],
         [])) := by
  refine ⟨?_, ?_, ?_, ?_, ?_⟩
  · intro t q hc hfn
    unfold workerIteration
    rw [if_pos hrun, hc]
    dsimp only [queueReceive]
    unfold runTask
    rw [if_pos hfn]
    dsimp only
    rw [dec32_inc32 _ hact]
  · intro t q hc hh hfn
    unfold workerIteration
    rw [if_pos hrun, hc, hh]
    dsimp only [queueReceive]
    unfold runTask
    rw [if_pos hfn]
    dsimp only
    rw [dec32_inc32 _ hact]
  · intro t q hc hh hn hfn
    unfold workerIteration
    rw [if_pos hrun, hc, hh, hn]
    dsimp only [queueReceive]
    unfold runTask
    rw [if_pos hfn]
    dsimp only
    rw [dec32_inc32 _ hact]
  · intro t q hc hh hn hl hfn
    unfold workerIteration
    rw [if_pos hrun, hc, hh, hn, hl]
    dsimp only [queueReceive]
    unfold runTask
    rw [if_pos hfn]
    dsimp only
    rw [dec32_inc32 _ hact]
  · intro hc hh hn hl
    unfold workerIteration
    rw [if_pos hrun, hc, hh, hn, hl]
    rfl

/-- A running pool with a single task waiting in the Normal queue. -/
def workerWitnessPool : Pool :=
  { Pool.zeroed with
    initialized := true
    state := PoolState.running
    queue_normal := [⟨21, 7, Priority.normal⟩]
    cap_critical := 4
    cap_high := 4
    cap_normal := 8
    cap_low := 4 }

/-- Witness for the worker-iteration theorem: on the concrete running
pool the worker polls Critical, High, then receives from Normal with the
100 ms timeout and runs the task, leaving `active_tasks` at its old
value and bumping `total_completed`. -/
theorem workerIteration_spec_witness :
    workerWitnessPool.state = PoolState.running ∧
    workerWitnessPool.active_tasks + 1 < U32 ∧
    workerIteration workerWitnessPool =
      ({ workerWitnessPool with
         queue_normal := []
         active_tasks := workerWitnessPool.active_tasks
         total_completed := inc32 workerWitnessPool.total_completed },
       [(Priority.critical, 0), (Priority.high, 0), (Priority.normal, 100)],
       [WorkerEvent.incActive, WorkerEvent.invoke 21 7,
        WorkerEvent.decActive, WorkerEvent.incCompleted]) := by
  refine ⟨rfl, by decide, ?_⟩
  exact (workerIteration_spec workerWitnessPool rfl (by decide)).2.2.1
    ⟨21, 7, Priority.normal⟩ [] rfl rfl rfl (by decide)

/-- A configuration whose `thread_count` exceeds the documented 1–16
range but which `cf_threadpool_init_with_config` accepts. -/
def bigConfig : Config := ⟨17, 4, 1024, 0⟩

/-- C7 counterexample: `thread_count = 17` (with positive queue and
stack sizes) is **not** rejected — initialization returns OK and marks
the pool initialized, contradicting the claim that every configuration
with `thread_count` outside 1–16 fails with a parameter error. -/
theorem initWithConfig_claim_false :
    (initWithConfig Pool.zeroed (some bigConfig)).1 = Status.ok ∧
    (initWithConfig Pool.zeroed (some bigConfig)).1 ≠ Status.invalidParam ∧
    (initWithConfig Pool.zeroed (some bigConfig)).2.initialized = true := by
  refine ⟨by decide, by decide, by decide⟩

/-- C7 amended: on an uninitialized pool the function rejects exactly
the configurations with `thread_count = 0`, `queue_size = 0` or
`stack_size = 0` (returning `InvalidParam` and leaving the pool
untouched, hence uninitialized); every other configuration — including
`thread_count > 16`, whose 1–16 bound is only a compile-time check on
the default macro — is accepted, creating a running pool whose Normal
queue has twice the configured capacity. -/
theorem initWithConfig_validation (p : Pool) (cfg : Config)
    (hp : p.initialized = false) :
    ((cfg.thread_count = 0 ∨ cfg.queue_size = 0 ∨ cfg.stack_size = 0) →
      initWithConfig p (some cfg) = (Status.invalidParam, p)) ∧
    (cfg.thread_count ≥ 1 → cfg.queue_size ≥ 1 → cfg.stack_size ≥ 1 →
      (initWithConfig p (some cfg)).1 = Status.ok ∧
      (initWithConfig p (some cfg)).2.initialized = true ∧
      (initWithConfig p (some cfg)).2.state = PoolState.running ∧
      (initWithConfig p (some cfg)).2.thread_count = cfg.thread_count ∧
      (initWithConfig p (some cfg)).2.stack_size = cfg.stack_size ∧
      (initWithConfig p (some cfg)).2.cap_critical = cfg.queue_size ∧
      (initWithConfig p (some cfg)).2.cap_high = cfg.queue_size ∧
      (initWithConfig p (some cfg)).2.cap_normal = cfg.queue_size * 2 ∧
      (initWithConfig p (some cfg)).2.cap_low = cfg.queue_size) := by
  constructor
  · intro hz
    unfold initWithConfig
    dsimp only
    rw [if_neg (by simp [hp]), if_pos hz]
  · intro h1 h2 h3
    unfold initWithConfig
    dsimp only
    rw [if_neg (by simp [hp]), if_neg (by omega)]
    exact ⟨rfl, rfl, rfl, rfl, rfl, rfl, rfl, rfl, rfl⟩

/-- Witness for the amended init-validation theorem: a zero
`thread_count` is rejected on the zeroed pool, and the default-like
configuration `(4, 8, 1024)` is accepted. -/
theorem initWithConfig_validation_witness :
    Pool.zeroed.initialized = false ∧
    initWithConfig Pool.zeroed (some ⟨0, 8, 1024, 0⟩) =
      (Status.invalidParam, Pool.zeroed) ∧
    (initWithConfig Pool.zeroed (some ⟨4, 8, 1024, 0⟩)).1 = Status.ok := by
  refine ⟨rfl, ?_, ?_⟩
  · exact (initWithConfig_validation Pool.zeroed ⟨0, 8, 1024, 0⟩ rfl).1
      (Or.inl rfl)
  · exact ((initWithConfig_validation Pool.zeroed ⟨4, 8, 1024, 0⟩ rfl).2
      (by decide) (by decide) (by decide)).1

/-- C10: when the event bus or the thread pool is not initialized, the
counting queries return 0 rather than an error status:
`cf_event_unsubscribe_all` and `cf_event_get_subscriber_count` return 0,
and `cf_threadpool_get_active_count` returns 0. -/
theorem uninitialized_counts_zero (s : Event.System) (p : Pool)
    (event_id : Nat) (hs : s.initialized = false)
    (hp : p.initialized = false) :
    (Event.unsubscribeAll s event_id).1 = 0 ∧
    Event.getSubscriberCount s = 0 ∧
    getActiveCount p = 0 := by
  refine ⟨?_, ?_, ?_⟩
  · simp [Event.unsubscribeAll, hs]
  · simp [Event.getSubscriberCount, hs]
  · simp [getActiveCount, hp]

/-- Witness for the uninitialized-queries theorem at the zeroed
singletons. -/
theorem uninitialized_counts_zero_witness :
    Event.System.zeroed.initialized = false ∧
    Pool.zeroed.initialized = false ∧
    ((Event.unsubscribeAll Event.System.zeroed 5).1 = 0 ∧
     Event.getSubscriberCount Event.System.zeroed = 0 ∧
     getActiveCount Pool.zeroed = 0) :=
  ⟨rfl, rfl, uninitialized_counts_zero Event.System.zeroed Pool.zeroed 5 rfl rfl⟩

end CF.ThreadPool

namespace CF.MemPool

/-! ## Memory pool manager (`cf_mempool.c`)

Embedding of the pool array, the free bitmasks, block allocation
(`cf_mempool_alloc_from_pool`), `cf_mempool_free`, pool creation and
destruction, and the size→pool lookup table rebuild
(`update_size_to_pool_map`).  Block pointers are `Nat` addresses
(`0` = `NULL`); a pool handle is the index of its slot in the manager's
fixed array.  `1UL << n` is embedded with exact-width modular
semantics. -/

/-- `CF_MEMPOOL_MAX_POOLS` (default). -/
def MAX_POOLS : Nat := 8

/-- `CF_MEMPOOL_MAX_SIZE` (default). -/
def MAX_SIZE : Nat := 2048

/-- `CF_MEMPOOL_MAGIC`. -/
def MAGIC : Nat := 0xDEADBEEF

/-- `CF_MEMPOOL_INVALID_INDEX`. -/
def INVALID_INDEX : Nat := 0xFF

/-- `UINT32_MAX`, the starting best-size in the map rebuild. -/
def UINT32_MAX : Nat := 2 ^ 32 - 1

/-- `struct cf_mempool_s`: one slot of `pools[CF_MEMPOOL_MAX_POOLS]`. -/
structure Pool where
  magic : Nat
  active : Bool
  block_size : Nat
  block_count : Nat
  memory_base : Nat
  free_mask_low : Nat
  free_mask_high : Nat
  alloc_hint : Nat
  total_allocations : Nat
  total_deallocations : Nat
  current_used : Nat
  peak_used : Nat
  allocation_failures : Nat
  fragmentation_count : Nat
  deriving DecidableEq, Repr

instance : Inhabited Pool :=
  ⟨⟨0, false, 0, 0, 0, 0, 0, 0, 0, 0, 0, 0, 0, 0⟩⟩

/-- A zeroed slot (what `memset` leaves behind). -/
def Pool.cleared : Pool := default

/-- `cf_mempool_config_t` (the `name` field is irrelevant here). -/
structure Config where
  block_size : Nat
  block_count : Nat
  deriving DecidableEq, Repr

/-- `cf_mempool_manager_t` (the singleton `g_pool_manager`).  The
`size_to_pool_map` array is kept as its index function. -/
structure Manager where
  initialized : Bool
  pools : List Pool
  pool_count : Nat
  size_to_pool_map : Nat → Nat
  global_allocations : Nat
  global_failures : Nat
  fragmentation_events : Nat

/-- `validate_config`: rejects zero / over-`MAX_SIZE` block sizes and
zero / over-64 block counts. -/
def validateConfig (cfg : Config) : Bool :=
  !(cfg.block_size == 0) && !(decide (cfg.block_size > MAX_SIZE)) &&
  !(cfg.block_count == 0) && !(decide (cfg.block_count > 64))

/-- `is_block_free`: tests the block's bit in the split 32-bit masks. -/
def isBlockFree (p : Pool) (i : Nat) : Bool :=
  if i < 32 then (p.free_mask_low &&& (1 <<< i)) != 0
  else (p.free_mask_high &&& (1 <<< (i - 32))) != 0

/-- `mark_block_used`: clears the block's bit (`mask &= ~(1 << i)`,
complement taken within 32 bits). -/
def markBlockUsed (p : Pool) (i : Nat) : Pool :=
  if i < 32 then
    { p with free_mask_low := p.free_mask_low &&& (UINT32_MAX ^^^ (1 <<< i)) }
  else
    { p with free_mask_high :=
        p.free_mask_high &&& (UINT32_MAX ^^^ (1 <<< (i - 32))) }

/-- `mark_block_free`: sets the block's bit. -/
def markBlockFree (p : Pool) (i : Nat) : Pool :=
  if i < 32 then
    { p with free_mask_low := p.free_mask_low ||| (1 <<< i) }
  else
    { p with free_mask_high := p.free_mask_high ||| (1 <<< (i - 32)) }

/-- `find_free_block`: linear scan of `(alloc_hint + i) % block_count`
for `i < block_count`, first index whose free bit is 1. -/
def findFreeBlock (p : Pool) : Option Nat :=
  ((List.range p.block_count).find?
    (fun i => isBlockFree p ((p.alloc_hint + i) % p.block_count))).map
    (fun i => (p.alloc_hint + i) % p.block_count)

/-- `validate_handle` for handle = slot index `j`. -/
def validHandle (m : Manager) (j : Nat) : Prop :=
  j < m.pools.length ∧ m.initialized = true ∧
  (m.pools.getD j default).magic = MAGIC ∧
  (m.pools.getD j default).active = true

instance (m : Manager) (j : Nat) : Decidable (validHandle m j) := by
  unfold validHandle
  infer_instance

/-- `cf_mempool_alloc_from_pool`: validate the handle, bail out when the
pool is full or no free block is found (bumping `allocation_failures`),
otherwise clear the block's free bit, bump the usage counters, advance
the hint and return `base + index·block_size` (the pool mutex try-lock
is modelled as succeeding). -/
def allocFromPool (m : Manager) (j : Nat) : Option Nat × Manager :=
  if validHandle m j then
    let p := m.pools.getD j default
    if p.current_used ≥ p.block_count then
      let failed := { p with allocation_failures := inc32 p.allocation_failures }
      (none, { m with pools := m.pools.set j failed })
    else
      match findFreeBlock p with
      | none =>
        let failed :=
          { p with allocation_failures := inc32 p.allocation_failures }
        (none, { m with pools := m.pools.set j failed })
      | some idx =>
        let used := markBlockUsed p idx
        let cu := inc32 p.current_used
        let stored :=
          { used with
            current_used := cu
            total_allocations := inc32 p.total_allocations
            peak_used := if cu > p.peak_used then cu else p.peak_used
            alloc_hint := (idx + 1) % p.block_count }
        (some (p.memory_base + idx * p.block_size),
         { m with
           pools := m.pools.set j stored
           global_allocations := inc32 m.global_allocations })
  else (none, m)

/-- The containment test of `find_pool_by_pointer` on one slot:
active and `base ≤ ptr < base + block_count·block_size`. -/
def poolContains (p : Pool) (ptr : Nat) : Bool :=
  p.active && decide (p.memory_base ≤ ptr) &&
    decide (ptr < p.memory_base + p.block_count * p.block_size)

/-- `find_pool_by_pointer`: index of the first active pool whose address
range contains the pointer. -/
def findPoolByPointer : List Pool → Nat → Option Nat
  | [], _ => none
  | p :: rest, ptr =>
    if poolContains p ptr then some 0
    else (findPoolByPointer rest ptr).map (· + 1)

/-- `get_block_index`: offset division with bounds and alignment
checks (all failures collapse to `none` = `InvalidParam`). -/
def getBlockIndex (p : Pool) (ptr : Nat) : Option Nat :=
  if ptr < p.memory_base then none
  else
    let offset := ptr - p.memory_base
    let idx := offset / p.block_size
    if idx ≥ p.block_count then none
    else if offset % p.block_size ≠ 0 then none
    else some idx

/-- `cf_mempool_free`: NULL is a no-op `OK`; otherwise find the owning
pool, compute and validate the block index, reject a block whose free
bit is already 1 with `InvalidState` (state untouched), else set the
bit, decrement `current_used` and bump `total_deallocations`. -/
def memFree (m : Manager) (ptr : Nat) : Status × Manager :=
  if ptr = 0 then (Status.ok, m)
  else
    match findPoolByPointer m.pools ptr with
    | none => (Status.invalidParam, m)
    | some j =>
      let p := m.pools.getD j default
      match getBlockIndex p ptr with
      | none => (Status.invalidParam, m)
      | some idx =>
        if isBlockFree p idx then (Status.invalidState, m)
        else
          let freed := markBlockFree p idx
          let stored :=
            { freed with
              current_used := dec32 p.current_used
              total_deallocations := inc32 p.total_deallocations }
          (Status.ok, { m with pools := m.pools.set j stored })

/-- The inner loop of `update_size_to_pool_map` for one size: walk the
pool array tracking `(best_block_size, best_pool_idx)`, picking each
active covering pool whose block size strictly improves the best. -/
def bestPoolScan (size : Nat) : List Pool → Nat → Nat × Nat → Nat × Nat
  | [], _, acc => acc
  | p :: rest, i, acc =>
    if p.active = true ∧ size ≤ p.block_size ∧ p.block_size < acc.1 then
      bestPoolScan size rest (i + 1) (p.block_size, i)
    else
      bestPoolScan size rest (i + 1) acc

/-- `update_size_to_pool_map`: every in-range size maps to the best
pool index found by the scan; size 0 and out-of-range sizes keep the
`memset` value `0xFF`. -/
def updateSizeToPoolMap (pools : List Pool) : Nat → Nat :=
  fun size =>
    if size = 0 ∨ size > MAX_SIZE then INVALID_INDEX
    else (bestPoolScan size pools 0 (UINT32_MAX, INVALID_INDEX)).2

/-- `find_pool_for_size`: consult the map, check the mapped slot is
still active. -/
def findPoolForSize (m : Manager) (size : Nat) : Option Nat :=
  if size > MAX_SIZE then none
  else
    let idx := m.size_to_pool_map size
    if idx = INVALID_INDEX then none
    else if (m.pools.getD idx default).active then some idx else none

/-- First inactive slot of the pool array (`cf_mempool_create`'s slot
search). -/
def findFreePoolSlot : List Pool → Option Nat
  | [] => none
  | p :: rest =>
    if !p.active then some 0
    else (findFreePoolSlot rest).map (· + 1)

/-- The free-mask initialisation of `cf_mempool_create`: `block_count`
low bits set across the two words. -/
def initFreeMasks (block_count : Nat) : Nat × Nat :=
  if block_count ≤ 32 then
    ((1 <<< block_count) - 1, 0)
  else
    (0xFFFFFFFF,
     if block_count - 32 ≥ 32 then 0xFFFFFFFF
     else (1 <<< (block_count - 32)) - 1)

/-- `cf_mempool_create` (heap allocation modelled as succeeding with
base address `base`; the name handling is omitted): validates state and
configuration, claims the first inactive slot, fills in the new pool
with all blocks free and zeroed statistics, bumps `pool_count`, rebuilds
the size→pool map and returns the slot as handle. -/
def createPool (m : Manager) (cfg? : Option Config) (base : Nat) :
    Status × Manager × Option Nat :=
  match cfg? with
  | none => (Status.nullPointer, m, none)
  | some cfg =>
    if m.initialized = false then (Status.notInitialized, m, none)
    else if validateConfig cfg = false then (Status.invalidParam, m, none)
    else
      match findFreePoolSlot m.pools with
      | none => (Status.noMemory, m, none)
      | some k =>
        let masks := initFreeMasks cfg.block_count
        let pools' := m.pools.set k
          { magic := MAGIC
            active := true
            block_size := cfg.block_size
            block_count := cfg.block_count
            memory_base := base
            free_mask_low := masks.1
            free_mask_high := masks.2
            alloc_hint := 0
            total_allocations := 0
            total_deallocations := 0
            current_used := 0
            peak_used := 0
            allocation_failures := 0
            fragmentation_count := 0 }
        (Status.ok,
         { m with
           pools := pools'
           pool_count := m.pool_count + 1
           size_to_pool_map := updateSizeToPoolMap pools' },
         some k)

/-- `cf_mempool_destroy`: validates the handle, releases the slot
(`memset` to zero), decrements `pool_count` (guarded at 0), rebuilds the
size→pool map. -/
def destroyPool (m : Manager) (j : Nat) : Status × Manager :=
  if validHandle m j then
    let pools' := m.pools.set j Pool.cleared
    (Status.ok,
     { m with
       pools := pools'
       pool_count := m.pool_count - 1
       size_to_pool_map := updateSizeToPoolMap pools' })
  else (Status.invalidParam, m)

/-- `cf_mempool_init` applied to the zeroed singleton: empty pool slots,
map all-`0xFF`, zero counters. -/
def Manager.initial : Manager :=
  { initialized := true
    pools := List.replicate MAX_POOLS Pool.cleared
    pool_count := 0
    size_to_pool_map := fun _ => INVALID_INDEX
    global_allocations := 0
    global_failures := 0
    fragmentation_events := 0 }

end CF.MemPool

namespace CF.MemPool

/-! ### Free-mask initialisation (pool creation) -/

/-- Number of 1 bits among the low 32 bits of a word. -/
def countOnes32 (n : Nat) : Nat := (List.range 32).countP (fun i => n.testBit i)

theorem getD_set_self_pool (l : List Pool) (k : Nat) (x : Pool)
    (h : k < l.length) : (l.set k x).getD k default = x := by
  have h2 : k < (l.set k x).length := by simpa using h
  rw [List.getD_eq_getElem?_getD, List.getElem?_eq_getElem h2]
  simp

theorem getD_set_ne_pool (l : List Pool) (j k : Nat) (x : Pool) (h : j ≠ k) :
    (l.set j x).getD k default = l.getD k default := by
  rw [List.getD_eq_getElem?_getD, List.getD_eq_getElem?_getD,
    List.getElem?_set_ne h]

theorem findFreePoolSlot_spec (l : List Pool) (k : Nat)
    (h : findFreePoolSlot l = some k) :
    k < l.length ∧ (l.getD k default).active = false := by
  induction l generalizing k with
  | nil => simp [findFreePoolSlot] at h
  | cons p rest ih =>
    by_cases ha : p.active
    · simp [findFreePoolSlot, ha] at h
      obtain ⟨j, hj, rfl⟩ := h
      obtain ⟨h1, h2⟩ := ih j hj
      refine ⟨by simpa using Nat.succ_lt_succ h1, by simpa using h2⟩
    · simp [findFreePoolSlot, ha] at h
      subst h
      simp [ha]

theorem initFreeMasks_popcount (bc : Nat) (h1 : 1 ≤ bc) (h2 : bc ≤ 64) :
    countOnes32 (initFreeMasks bc).1 + countOnes32 (initFreeMasks bc).2 = bc := by
  have key : ∀ b, b < 65 → 1 ≤ b →
      countOnes32 (initFreeMasks b).1 + countOnes32 (initFreeMasks b).2 = b := by
    decide
  exact key bc (by omega) h1

/-- Branch equation: successful pool creation at the found slot. -/
theorem createPool_eq (m : Manager) (cfg : Config) (base k : Nat)
    (hinit : m.initialized = true)
    (hcfg : validateConfig cfg = true)
    (hfind : findFreePoolSlot m.pools = some k) :
    createPool m (some cfg) base =
      (Status.ok,
       { m with
         pools := m.pools.set k
           ⟨MAGIC, true, cfg.block_size, cfg.block_count, base,
            (initFreeMasks cfg.block_count).1, (initFreeMasks cfg.block_count).2,
            0, 0, 0, 0, 0, 0, 0⟩
         pool_count := m.pool_count + 1
         size_to_pool_map := updateSizeToPoolMap (m.pools.set k
           ⟨MAGIC, true, cfg.block_size, cfg.block_count, base,
            (initFreeMasks cfg.block_count).1, (initFreeMasks cfg.block_count).2,
            0, 0, 0, 0, 0, 0, 0⟩) },
       some k) := by
  unfold createPool
  dsimp only
  rw [if_neg (by simp [hinit]), if_neg (by simp [hcfg]), hfind]

/-- C6: for every accepted configuration (`1 ≤ block_count ≤ 64`),
creation initialises the two 32-bit free masks so that exactly
`block_count` low bits are 1 across the two words; in particular the low
word is all-ones at `block_count = 32` and both words are all-ones at
`block_count = 64`. -/
theorem createPool_free_masks (m : Manager) (cfg : Config) (base k : Nat)
    (hinit : m.initialized = true)
    (hcfg : validateConfig cfg = true)
    (hfind : findFreePoolSlot m.pools = some k) :
    (createPool m (some cfg) base).1 = Status.ok ∧
    (createPool m (some cfg) base).2.2 = some k ∧
    countOnes32
        ((createPool m (some cfg) base).2.1.pools.getD k default).free_mask_low +
      countOnes32
        ((createPool m (some cfg) base).2.1.pools.getD k default).free_mask_high =
      cfg.block_count ∧
    (cfg.block_count = 32 →
      ((createPool m (some cfg) base).2.1.pools.getD k default).free_mask_low =
        0xFFFFFFFF ∧
      ((createPool m (some cfg) base).2.1.pools.getD k default).free_mask_high =
        0) ∧
    (cfg.block_count = 64 →
      ((createPool m (some cfg) base).2.1.pools.getD k default).free_mask_low =
        0xFFFFFFFF ∧
      ((createPool m (some cfg) base).2.1.pools.getD k default).free_mask_high =
        0xFFFFFFFF) := by
  obtain ⟨hk, _⟩ := findFreePoolSlot_spec m.pools k hfind
  have hbc : 1 ≤ cfg.block_count ∧ cfg.block_count ≤ 64 := by
    simp [validateConfig, MAX_SIZE] at hcfg
    omega
  rw [createPool_eq m cfg base k hinit hcfg hfind]
  dsimp only
  rw [getD_set_self_pool m.pools k _ hk]
  refine ⟨rfl, rfl, ?_, ?_, ?_⟩
  · exact initFreeMasks_popcount cfg.block_count hbc.1 hbc.2
  · intro h32
    rw [h32]
    constructor
    · show (initFreeMasks 32).1 = 0xFFFFFFFF
      decide
    · show (initFreeMasks 32).2 = 0
      decide
  · intro h64
    rw [h64]
    constructor
    · show (initFreeMasks 64).1 = 0xFFFFFFFF
      decide
    · show (initFreeMasks 64).2 = 0xFFFFFFFF
      decide

/-- Witness for the free-mask theorem: creating a 64-block pool of
512-byte blocks on the freshly initialised manager sets both mask words
to all-ones (so 64 free bits). -/
theorem createPool_free_masks_witness :
    Manager.initial.initialized = true ∧
    validateConfig ⟨512, 64⟩ = true ∧
    findFreePoolSlot Manager.initial.pools = some 0 ∧
    countOnes32
        ((createPool Manager.initial (some ⟨512, 64⟩) 4096).2.1.pools.getD 0
          default).free_mask_low +
      countOnes32
        ((createPool Manager.initial (some ⟨512, 64⟩) 4096).2.1.pools.getD 0
          default).free_mask_high = 64 := by
  refine ⟨rfl, by decide, by decide, ?_⟩
  exact (createPool_free_masks Manager.initial ⟨512, 64⟩ 4096 0 rfl (by decide)
    (by decide)).2.2.1

end CF.MemPool

namespace CF.MemPool

/-! ### Size→pool map consistency -/

/-- An active pool that covers a requested size. -/
def goodFor (size : Nat) (p : Pool) : Prop :=
  p.active = true ∧ size ≤ p.block_size

instance (size : Nat) (p : Pool) : Decidable (goodFor size p) := by
  unfold goodFor
  infer_instance

/-- All active pools respect the compile-time size cap (holds in every
state reachable through `cf_mempool_create`'s validation). -/
def PoolsWF (pools : List Pool) : Prop :=
  ∀ k, k < pools.length → (pools.getD k default).active = true →
    (pools.getD k default).block_size ≤ MAX_SIZE

/-- What the claim asserts of the lookup table: every covered in-range
size maps to an active covering pool of minimal block size, every
uncovered size maps to the invalid marker. -/
def MapConsistent (pools : List Pool) (map : Nat → Nat) : Prop :=
  ∀ size, 1 ≤ size → size ≤ MAX_SIZE →
    ((∃ k, k < pools.length ∧ goodFor size (pools.getD k default)) →
      map size < pools.length ∧
      goodFor size (pools.getD (map size) default) ∧
      (∀ k, k < pools.length → goodFor size (pools.getD k default) →
        (pools.getD (map size) default).block_size ≤
          (pools.getD k default).block_size)) ∧
    ((¬∃ k, k < pools.length ∧ goodFor size (pools.getD k default)) →
      map size = INVALID_INDEX)

theorem bestPoolScan_spec (size : Nat) (l : List Pool) (i bs bi : Nat) :
    (bestPoolScan size l i (bs, bi)).1 ≤ bs ∧
    (∀ k, k < l.length → goodFor size (l.getD k default) →
      (bestPoolScan size l i (bs, bi)).1 ≤ (l.getD k default).block_size) ∧
    (bestPoolScan size l i (bs, bi) = (bs, bi) ∨
     (∃ k, k < l.length ∧ (bestPoolScan size l i (bs, bi)).2 = i + k ∧
       goodFor size (l.getD k default) ∧
       (l.getD k default).block_size = (bestPoolScan size l i (bs, bi)).1 ∧
       (bestPoolScan size l i (bs, bi)).1 < bs)) := by
  induction l generalizing i bs bi with
  | nil => exact ⟨Nat.le_refl bs, by simp, Or.inl rfl⟩
  | cons p rest ih =>
    by_cases hc : p.active = true ∧ size ≤ p.block_size ∧ p.block_size < bs
    · have heq : bestPoolScan size (p :: rest) i (bs, bi) =
          bestPoolScan size rest (i + 1) (p.block_size, i) := by
        show (if p.active = true ∧ size ≤ p.block_size ∧
            p.block_size < (bs, bi).1 then
            bestPoolScan size rest (i + 1) (p.block_size, i)
          else bestPoolScan size rest (i + 1) (bs, bi)) = _
        rw [if_pos (by exact hc)]
      obtain ⟨ih1, ih2, ih3⟩ := ih (i + 1) p.block_size i
      rw [heq]
      refine ⟨Nat.le_trans ih1 (by omega), ?_, ?_⟩
      · intro k hk hg
        cases k with
        | zero =>
          rw [List.getD_cons_zero] at hg ⊢
          exact ih1
        | succ k =>
          rw [List.getD_cons_succ] at hg ⊢
          exact ih2 k (by simpa using hk) hg
      · rcases ih3 with h | ⟨k, hk, h2, h3, h4, h5⟩
        · right
          refine ⟨0, by simp, ?_, ?_, ?_, ?_⟩
          · rw [h]
            simp
          · rw [List.getD_cons_zero]
            exact ⟨hc.1, hc.2.1⟩
          · rw [List.getD_cons_zero, h]
          · rw [h]
            exact hc.2.2
        · right
          refine ⟨k + 1, by simpa using hk, ?_, ?_, ?_, ?_⟩
          · rw [h2]
            omega
          · rw [List.getD_cons_succ]
            exact h3
          · rw [List.getD_cons_succ]
            exact h4
          · omega
    · have heq : bestPoolScan size (p :: rest) i (bs, bi) =
          bestPoolScan size rest (i + 1) (bs, bi) := by
        show (if p.active = true ∧ size ≤ p.block_size ∧
            p.block_size < (bs, bi).1 then
            bestPoolScan size rest (i + 1) (p.block_size, i)
          else bestPoolScan size rest (i + 1) (bs, bi)) = _
        rw [if_neg (by exact hc)]
      obtain ⟨ih1, ih2, ih3⟩ := ih (i + 1) bs bi
      rw [heq]
      refine ⟨ih1, ?_, ?_⟩
      · intro k hk hg
        cases k with
        | zero =>
          rw [List.getD_cons_zero] at hg
          rw [List.getD_cons_zero]
          have hbs : bs ≤ p.block_size := by
            rcases hg with ⟨hga, hgs⟩
            by_contra hlt
            exact hc ⟨hga, hgs, by omega⟩
          exact Nat.le_trans ih1 hbs
        | succ k =>
          rw [List.getD_cons_succ] at hg ⊢
          exact ih2 k (by simpa using hk) hg
      · rcases ih3 with h | ⟨k, hk, h2, h3, h4, h5⟩
        · exact Or.inl h
        · right
          refine ⟨k + 1, by simpa using hk, ?_, ?_, ?_, h5⟩
          · rw [h2]
            omega
          · rw [List.getD_cons_succ]
            exact h3
          · rw [List.getD_cons_succ]
            exact h4

theorem updateMap_consistent (pools : List Pool) (hwf : PoolsWF pools) :
    MapConsistent pools (updateSizeToPoolMap pools) := by
  intro size h1 h2
  have hmap : updateSizeToPoolMap pools size =
      (bestPoolScan size pools 0 (UINT32_MAX, INVALID_INDEX)).2 := by
    unfold updateSizeToPoolMap
    rw [if_neg (by omega)]
  obtain ⟨s1, s2, s3⟩ := bestPoolScan_spec size pools 0 UINT32_MAX INVALID_INDEX
  constructor
  · rintro ⟨k, hk, hg⟩
    have hblt : (bestPoolScan size pools 0 (UINT32_MAX, INVALID_INDEX)).1 <
        UINT32_MAX := by
      have ha := s2 k hk hg
      have hb := hwf k hk hg.1
      unfold UINT32_MAX MAX_SIZE at *
      omega
    rcases s3 with h | ⟨k', hk', h2', h3', h4', h5'⟩
    · rw [h] at hblt
      exact absurd hblt (by omega)
    · rw [hmap, h2']
      have hzk : 0 + k' = k' := by omega
      rw [hzk]
      refine ⟨hk', h3', ?_⟩
      intro k2 hk2 hg2
      rw [h4']
      exact s2 k2 hk2 hg2
  · intro hnone
    rcases s3 with h | ⟨k', hk', _, h3', _, _⟩
    · rw [hmap, h]
    · exact absurd ⟨k', hk', h3'⟩ hnone

/-- Branch equation: successful pool destruction. -/
theorem destroyPool_eq (m : Manager) (j : Nat) (hv : validHandle m j) :
    destroyPool m j =
      (Status.ok,
       { m with
         pools := m.pools.set j Pool.cleared
         pool_count := m.pool_count - 1
         size_to_pool_map := updateSizeToPoolMap (m.pools.set j Pool.cleared) }) := by
  unfold destroyPool
  rw [if_pos hv]

/-- C5: after every successful pool create or destroy, the size→pool
map is consistent with the set of active pools: every in-range size
covered by some active pool maps to an active pool of minimal covering
block size, and every uncovered size maps to the `0xFF` marker. -/
theorem sizeToPoolMap_consistent (m : Manager) (hwf : PoolsWF m.pools) :
    (∀ cfg base k, m.initialized = true → validateConfig cfg = true →
      findFreePoolSlot m.pools = some k →
      MapConsistent (createPool m (some cfg) base).2.1.pools
        (createPool m (some cfg) base).2.1.size_to_pool_map) ∧
    (∀ j, validHandle m j →
      MapConsistent (destroyPool m j).2.pools
        (destroyPool m j).2.size_to_pool_map) := by
  constructor
  · intro cfg base k hinit hcfg hfind
    obtain ⟨hk, _⟩ := findFreePoolSlot_spec m.pools k hfind
    rw [createPool_eq m cfg base k hinit hcfg hfind]
    dsimp only
    apply updateMap_consistent
    intro k2 hk2 ha2
    rw [List.length_set] at hk2
    by_cases hkk : k = k2
    · subst hkk
      rw [getD_set_self_pool m.pools k _ hk] at ha2 ⊢
      have : cfg.block_size ≤ MAX_SIZE := by
        simp [validateConfig, MAX_SIZE] at hcfg
        unfold MAX_SIZE
        omega
      simpa using this
    · rw [getD_set_ne_pool m.pools k k2 _ hkk] at ha2 ⊢
      exact hwf k2 hk2 ha2
  · intro j hv
    rw [destroyPool_eq m j hv]
    dsimp only
    apply updateMap_consistent
    intro k2 hk2 ha2
    rw [List.length_set] at hk2
    by_cases hkk : j = k2
    · subst hkk
      rw [getD_set_self_pool m.pools j _ hv.1] at ha2
      exact absurd ha2 (by simp [Pool.cleared])
    · rw [getD_set_ne_pool m.pools j k2 _ hkk] at ha2 ⊢
      exact hwf k2 hk2 ha2

theorem poolsWF_initial : PoolsWF Manager.initial.pools := by
  intro k hk ha
  have : Manager.initial.pools.getD k default = Pool.cleared := by
    rw [List.getD_eq_getElem?_getD]
    have : Manager.initial.pools[k]? = some Pool.cleared := by
      rw [List.getElem?_eq_getElem (by simpa using hk)]
      simp [Manager.initial]
    rw [this]
    rfl
  rw [this] at ha
  exact absurd ha (by simp [Pool.cleared])

/-- Witness for the map-consistency theorem: creating a `128 × 4` pool
on the fresh manager yields a consistent map, and so does destroying it
again. -/
theorem sizeToPoolMap_consistent_witness :
    PoolsWF Manager.initial.pools ∧
    Manager.initial.initialized = true ∧
    validateConfig ⟨128, 4⟩ = true ∧
    findFreePoolSlot Manager.initial.pools = some 0 ∧
    MapConsistent (createPool Manager.initial (some ⟨128, 4⟩) 4096).2.1.pools
      (createPool Manager.initial (some ⟨128, 4⟩) 4096).2.1.size_to_pool_map := by
  refine ⟨poolsWF_initial, rfl, by decide, by decide, ?_⟩
  exact (sizeToPoolMap_consistent Manager.initial poolsWF_initial).1
    ⟨128, 4⟩ 4096 0 rfl (by decide) (by decide)

end CF.MemPool

namespace CF.MemPool

/-! ### Double free on a freshly allocated block -/

theorem and_shift_ne_zero (m i : Nat) :
    ((m &&& (1 <<< i)) != 0) = m.testBit i := by
  rw [Nat.shiftLeft_eq, one_mul, Nat.and_two_pow]
  cases h : m.testBit i <;> simp [h]

theorem isBlockFree_markBlockUsed_self (p : Pool) (i : Nat) (hi : i < 64) :
    isBlockFree (markBlockUsed p i) i = false := by
  unfold isBlockFree markBlockUsed UINT32_MAX
  by_cases h : i < 32
  · simp only [h, if_true, and_shift_ne_zero]
    rw [Nat.shiftLeft_eq, one_mul, Nat.testBit_and, Nat.testBit_xor,
      Nat.testBit_two_pow_sub_one, Nat.testBit_two_pow]
    simp [h]
  · simp only [h, if_false, and_shift_ne_zero]
    rw [Nat.shiftLeft_eq, one_mul, Nat.testBit_and, Nat.testBit_xor,
      Nat.testBit_two_pow_sub_one, Nat.testBit_two_pow]
    have h32 : i - 32 < 32 := by omega
    simp [h32]

theorem isBlockFree_markBlockFree_self (p : Pool) (i : Nat) :
    isBlockFree (markBlockFree p i) i = true := by
  unfold isBlockFree markBlockFree
  by_cases h : i < 32
  · simp only [h, if_true, and_shift_ne_zero]
    rw [Nat.shiftLeft_eq, one_mul]
    simp [Nat.testBit_two_pow]
  · simp only [h, if_false, and_shift_ne_zero]
    rw [Nat.shiftLeft_eq, one_mul]
    simp [Nat.testBit_two_pow]

theorem markBlockUsed_fields (p : Pool) (i : Nat) :
    (markBlockUsed p i).active = p.active ∧
    (markBlockUsed p i).magic = p.magic ∧
    (markBlockUsed p i).memory_base = p.memory_base ∧
    (markBlockUsed p i).block_size = p.block_size ∧
    (markBlockUsed p i).block_count = p.block_count ∧
    (markBlockUsed p i).current_used = p.current_used := by
  unfold markBlockUsed
  by_cases h : i < 32 <;> simp [h]

theorem markBlockFree_fields (p : Pool) (i : Nat) :
    (markBlockFree p i).active = p.active ∧
    (markBlockFree p i).magic = p.magic ∧
    (markBlockFree p i).memory_base = p.memory_base ∧
    (markBlockFree p i).block_size = p.block_size ∧
    (markBlockFree p i).block_count = p.block_count := by
  unfold markBlockFree
  by_cases h : i < 32 <;> simp [h]

theorem findFreeBlock_spec (p : Pool) (idx : Nat)
    (h : findFreeBlock p = some idx) :
    idx < p.block_count ∧ isBlockFree p idx = true := by
  unfold findFreeBlock at h
  rw [Option.map_eq_some'] at h
  obtain ⟨i, hfind, rfl⟩ := h
  have hp := List.find?_some hfind
  have hmem := List.mem_of_find?_eq_some hfind
  rw [List.mem_range] at hmem
  have hpos : 0 < p.block_count := by omega
  exact ⟨Nat.mod_lt _ hpos, hp⟩

theorem findPoolByPointer_eq (pools : List Pool) (ptr j : Nat)
    (hj : j < pools.length)
    (hpre : ∀ k, k < j → poolContains (pools.getD k default) ptr = false)
    (hcon : poolContains (pools.getD j default) ptr = true) :
    findPoolByPointer pools ptr = some j := by
  induction pools generalizing j with
  | nil => simp at hj
  | cons p rest ih =>
    cases j with
    | zero =>
      rw [List.getD_cons_zero] at hcon
      unfold findPoolByPointer
      rw [if_pos hcon]
    | succ j =>
      have h0 : poolContains p ptr = false := by
        have := hpre 0 (by omega)
        rwa [List.getD_cons_zero] at this
      unfold findPoolByPointer
      rw [if_neg (by simp [h0])]
      have hrec := ih j (by simpa using hj)
        (fun k hk => by
          have := hpre (k + 1) (by omega)
          rwa [List.getD_cons_succ] at this)
        (by
          rw [List.getD_cons_succ] at hcon
          exact hcon)
      rw [hrec]
      rfl

theorem getBlockIndex_at (p : Pool) (idx : Nat) (hsz : 1 ≤ p.block_size)
    (hidx : idx < p.block_count) :
    getBlockIndex p (p.memory_base + idx * p.block_size) = some idx := by
  unfold getBlockIndex
  rw [if_neg (by omega)]
  have hoff : p.memory_base + idx * p.block_size - p.memory_base =
      idx * p.block_size := by omega
  dsimp only
  rw [hoff]
  have hdiv : idx * p.block_size / p.block_size = idx :=
    Nat.mul_div_cancel idx (by omega)
  have hmod : idx * p.block_size % p.block_size = 0 := Nat.mul_mod_left _ _
  rw [hdiv, hmod]
  rw [if_neg (by omega), if_neg (by omega)]

end CF.MemPool

namespace CF.MemPool

/-- C3: a pointer freshly returned by `cf_mempool_alloc_from_pool` can
be freed once with `OK`; a second `cf_mempool_free` of the same pointer
returns `InvalidState` and leaves the manager — in particular the
pool's `current_used` and free bitmasks — unchanged.  (The hypotheses
state that the handle is valid, the pool has positive block size and a
non-null base, at most 64 blocks, spare capacity, a free block found at
`idx`, and that no earlier pool slot overlaps this pool's address
range.) -/
theorem alloc_free_double_free (m : Manager) (j idx ptr : Nat)
    (hv : validHandle m j)
    (hsz : 1 ≤ (m.pools.getD j default).block_size)
    (hbase : 1 ≤ (m.pools.getD j default).memory_base)
    (hbc : (m.pools.getD j default).block_count ≤ 64)
    (hcu : (m.pools.getD j default).current_used <
      (m.pools.getD j default).block_count)
    (hfind : findFreeBlock (m.pools.getD j default) = some idx)
    (hdisj : ∀ k, k < j → ∀ x,
      (m.pools.getD j default).memory_base ≤ x →
      x < (m.pools.getD j default).memory_base +
        (m.pools.getD j default).block_count *
          (m.pools.getD j default).block_size →
      poolContains (m.pools.getD k default) x = false)
    (hptr : ptr = (m.pools.getD j default).memory_base +
      idx * (m.pools.getD j default).block_size) :
    (allocFromPool m j).1 = some ptr ∧
    (memFree (allocFromPool m j).2 ptr).1 = Status.ok ∧
    memFree (memFree (allocFromPool m j).2 ptr).2 ptr =
      (Status.invalidState, (memFree (allocFromPool m j).2 ptr).2) := by
  obtain ⟨hjlen, hinit, hmag, hact⟩ := hv
  obtain ⟨hidx, hfree⟩ := findFreeBlock_spec _ idx hfind
  have hidx64 : idx < 64 := by omega
  set P1 : Pool :=
    { markBlockUsed (m.pools.getD j default) idx with
      current_used := inc32 (m.pools.getD j default).current_used
      total_allocations := inc32 (m.pools.getD j default).total_allocations
      peak_used :=
        if inc32 (m.pools.getD j default).current_used >
            (m.pools.getD j default).peak_used then
          inc32 (m.pools.getD j default).current_used
        else (m.pools.getD j default).peak_used
      alloc_hint := (idx + 1) % (m.pools.getD j default).block_count }
    with hP1def
  have hAlloc : allocFromPool m j =
      (some ptr,
       { m with
         pools := m.pools.set j P1
         global_allocations := inc32 m.global_allocations }) := by
    unfold allocFromPool
    rw [if_pos ⟨hjlen, hinit, hmag, hact⟩]
    dsimp only
    rw [if_neg (by omega), hfind, hptr, hP1def]
  -- Field bookkeeping for the stored pool after allocation.
  have hP1active : P1.active = true := by
    rw [hP1def]
    show (markBlockUsed (m.pools.getD j default) idx).active = true
    rw [(markBlockUsed_fields _ idx).1]
    exact hact
  have hP1base : P1.memory_base = (m.pools.getD j default).memory_base := by
    rw [hP1def]
    exact (markBlockUsed_fields _ idx).2.2.1
  have hP1bs : P1.block_size = (m.pools.getD j default).block_size := by
    rw [hP1def]
    exact (markBlockUsed_fields _ idx).2.2.2.1
  have hP1bc : P1.block_count = (m.pools.getD j default).block_count := by
    rw [hP1def]
    exact (markBlockUsed_fields _ idx).2.2.2.2.1
  have hP1freeBit : isBlockFree P1 idx = false := by
    rw [hP1def]
    show isBlockFree (markBlockUsed (m.pools.getD j default) idx) idx = false
    exact isBlockFree_markBlockUsed_self _ idx hidx64
  -- Pointer arithmetic facts.
  have hmul : (idx + 1) * (m.pools.getD j default).block_size ≤
      (m.pools.getD j default).block_count *
        (m.pools.getD j default).block_size :=
    Nat.mul_le_mul_right _ (by omega)
  have hsucc : (idx + 1) * (m.pools.getD j default).block_size =
      idx * (m.pools.getD j default).block_size +
        (m.pools.getD j default).block_size := by ring
  have hinrange : (m.pools.getD j default).memory_base ≤ ptr ∧
      ptr < (m.pools.getD j default).memory_base +
        (m.pools.getD j default).block_count *
          (m.pools.getD j default).block_size := by
    constructor
    · omega
    · rw [hptr]
      omega
  have hptr0 : ¬(ptr = 0) := by omega
  have hcontains1 : poolContains P1 ptr = true := by
    unfold poolContains
    rw [hP1active, hP1base, hP1bc, hP1bs]
    simp only [Bool.true_and, Bool.and_eq_true, decide_eq_true_eq]
    exact ⟨hinrange.1, hinrange.2⟩
  have hgetD1 : (m.pools.set j P1).getD j default = P1 :=
    getD_set_self_pool m.pools j P1 hjlen
  have hFind1 : findPoolByPointer (m.pools.set j P1) ptr = some j := by
    apply findPoolByPointer_eq
    · simpa using hjlen
    · intro k hk
      rw [getD_set_ne_pool m.pools j k P1 (by omega)]
      exact hdisj k hk ptr hinrange.1 hinrange.2
    · rw [hgetD1]
      exact hcontains1
  have hGet1 : getBlockIndex P1 ptr = some idx := by
    have := getBlockIndex_at P1 idx (by rw [hP1bs]; exact hsz)
      (by rw [hP1bc]; exact hidx)
    rw [hP1base, hP1bs] at this
    rw [hptr]
    exact this
  -- The pool stored after the first free.
  set P2 : Pool :=
    { markBlockFree P1 idx with
      current_used := dec32 P1.current_used
      total_deallocations := inc32 P1.total_deallocations }
    with hP2def
  have hFree1 : memFree
      ({ m with
         pools := m.pools.set j P1
         global_allocations := inc32 m.global_allocations } : Manager) ptr =
      (Status.ok,
       { m with
         pools := (m.pools.set j P1).set j P2
         global_allocations := inc32 m.global_allocations }) := by
    unfold memFree
    rw [if_neg hptr0]
    dsimp only
    rw [hFind1]
    dsimp only
    rw [hgetD1, hGet1]
    dsimp only
    rw [if_neg (by rw [hP1freeBit]; exact Bool.false_ne_true), hP2def]
  -- Field bookkeeping for the pool after the first free.
  have hP2active : P2.active = true := by
    rw [hP2def]
    show (markBlockFree P1 idx).active = true
    rw [(markBlockFree_fields _ idx).1]
    exact hP1active
  have hP2base : P2.memory_base = (m.pools.getD j default).memory_base := by
    rw [hP2def]
    show (markBlockFree P1 idx).memory_base = _
    rw [(markBlockFree_fields _ idx).2.2.1]
    exact hP1base
  have hP2bs : P2.block_size = (m.pools.getD j default).block_size := by
    rw [hP2def]
    show (markBlockFree P1 idx).block_size = _
    rw [(markBlockFree_fields _ idx).2.2.2.1]
    exact hP1bs
  have hP2bc : P2.block_count = (m.pools.getD j default).block_count := by
    rw [hP2def]
    show (markBlockFree P1 idx).block_count = _
    rw [(markBlockFree_fields _ idx).2.2.2.2]
    exact hP1bc
  have hP2freeBit : isBlockFree P2 idx = true := by
    rw [hP2def]
    show isBlockFree (markBlockFree P1 idx) idx = true
    exact isBlockFree_markBlockFree_self P1 idx
  have hcontains2 : poolContains P2 ptr = true := by
    unfold poolContains
    rw [hP2active, hP2base, hP2bc, hP2bs]
    simp only [Bool.true_and, Bool.and_eq_true, decide_eq_true_eq]
    exact ⟨hinrange.1, hinrange.2⟩
  have hgetD2 : ((m.pools.set j P1).set j P2).getD j default = P2 :=
    getD_set_self_pool _ j P2 (by simpa using hjlen)
  have hFind2 : findPoolByPointer ((m.pools.set j P1).set j P2) ptr =
      some j := by
    apply findPoolByPointer_eq
    · simpa using hjlen
    · intro k hk
      rw [getD_set_ne_pool _ j k P2 (by omega),
        getD_set_ne_pool m.pools j k P1 (by omega)]
      exact hdisj k hk ptr hinrange.1 hinrange.2
    · rw [hgetD2]
      exact hcontains2
  have hGet2 : getBlockIndex P2 ptr = some idx := by
    have := getBlockIndex_at P2 idx (by rw [hP2bs]; exact hsz)
      (by rw [hP2bc]; exact hidx)
    rw [hP2base, hP2bs] at this
    rw [hptr]
    exact this
  have hFree2 : memFree
      ({ m with
         pools := (m.pools.set j P1).set j P2
         global_allocations := inc32 m.global_allocations } : Manager) ptr =
      (Status.invalidState,
       { m with
         pools := (m.pools.set j P1).set j P2
         global_allocations := inc32 m.global_allocations }) := by
    unfold memFree
    rw [if_neg hptr0]
    dsimp only
    rw [hFind2]
    dsimp only
    rw [hgetD2, hGet2]
    dsimp only
    rw [if_pos (by rw [hP2freeBit])]
  refine ⟨?_, ?_, ?_⟩
  · rw [hAlloc]
  · rw [hAlloc]
    dsimp only
    rw [hFree1]
  · rw [hAlloc]
    dsimp only
    rw [hFree1]
    dsimp only
    rw [hFree2]

end CF.MemPool

namespace CF.MemPool

/-- Manager with one 64-byte × 4-block pool at base 4096, for the
double-free witness. -/
def dfWitnessManager : Manager :=
  (createPool Manager.initial (some ⟨64, 4⟩) 4096).2.1

/-- Witness for the double-free theorem: allocating from the concrete
pool returns 4096; freeing it once gives `OK`, a second free gives
`InvalidState` and returns the manager unchanged. -/
theorem alloc_free_double_free_witness :
    validHandle dfWitnessManager 0 ∧
    findFreeBlock (dfWitnessManager.pools.getD 0 default) = some 0 ∧
    ((allocFromPool dfWitnessManager 0).1 = some 4096 ∧
     (memFree (allocFromPool dfWitnessManager 0).2 4096).1 = Status.ok ∧
     memFree (memFree (allocFromPool dfWitnessManager 0).2 4096).2 4096 =
       (Status.invalidState,
        (memFree (allocFromPool dfWitnessManager 0).2 4096).2)) := by
  refine ⟨by decide, by decide, ?_⟩
  exact alloc_free_double_free dfWitnessManager 0 0 4096 (by decide)
    (by decide) (by decide) (by decide) (by decide) (by decide)
    (by intro k hk; omega) (by decide)

end CF.MemPool
